import Mathlib

/-!
# DXRSandbox CPU memory arena (CPUMemory.cpp / CPUMemory.h)

A shallow embedding of the handle-based bump allocator: the file-scope state of
CPUMemory.cpp becomes the record `Globals`, every function becomes a function on
that record returning `Except Fault`, and the properties stated for the allocator
are checked against these definitions.

Conventions
* Addresses are natural numbers below `2 ^ 64`; pointer and `uint64_t` arithmetic
  wraps modulo `2 ^ 64`, `uint32_t` arithmetic modulo `2 ^ 32`.
* The bookkeeping block `AllocBuffer` lives at the start of the backing buffer; it
  is kept as the structured field `allocs`, the rest of memory as the byte map
  `bytes`. Raw accesses (`memcpy`, `memset`, `memcmp`, reads and writes of the
  client) see the whole buffer as bytes: inside the block they read the bytes of
  the fields of `allocs` (`Globals.mem`), and a raw write that reaches the block is
  read back into the fields it reaches (`Globals.store`).
* A pointer into the handle table (`Alloc.internalHandle`) is represented by the
  index of the entry it designates; a pointer value that is not the address of the
  table plus a multiple of four is represented by `2 ^ 64` plus that value.
* `assert` failures end the run with `Fault.assertion`; accesses the C++ standard
  leaves undefined (out-of-bounds array accesses, null dereferences, overlapping
  `memcpy`, raw accesses outside the `malloc`ed buffer) end it with
  `Fault.undefined`.
-/

namespace CPUMemory

/-! ## Machine arithmetic -/

/-- Two to the 64: the modulus of `uint64_t` and of pointer arithmetic. -/
def twoPow64 : Nat := 18446744073709551616

/-- Two to the 32: the modulus of `uint32_t`. -/
def twoPow32 : Nat := 4294967296

/-- Wrapping `uint64_t` addition. -/
def add64 (a b : Nat) : Nat := (a + b) % twoPow64

/-- Wrapping `uint64_t` subtraction: `a - b` is `a` plus the two's complement of `b`. -/
def sub64 (a b : Nat) : Nat := ((twoPow64 - b % twoPow64) + a) % twoPow64

/-- Wrapping `uint32_t` addition. -/
def add32 (a b : Nat) : Nat := (a + b) % twoPow32

/-- Wrapping `uint32_t` subtraction: `a - b` is `a` plus the two's complement of `b`. -/
def sub32 (a b : Nat) : Nat := ((twoPow32 - b % twoPow32) + a) % twoPow32

/-! ## Compile-time configuration -/

/-- The constant `CPUMemory::initAlloc`; the argument says whether `MEM_MGR_TEST`
is defined (1 GiB in the diagnostic build, 512 MiB otherwise). -/
def initAlloc (memMgrTest : Bool) : Nat :=
  if memMgrTest then 1024 * 1024 * 1024 else 1024 * 1024 * 512

/-- The constant `scratchFootprint = CPUMemory::initAlloc / 2`. -/
def scratchFootprint (memMgrTest : Bool) : Nat := initAlloc memMgrTest / 2

/-- The constant `AllocBuffer::maxNumAllocs`. -/
def maxNumAllocs : Nat := 131072

/-- The constant `AllocBuffer::maxNumHandles`. -/
def maxNumHandles : Nat := 262144

/-- The constant `CPUMemory::emptyAllocHandle`: `AllocHandle` is `uint32_t` for both
values of `initAlloc`, so the sentinel is the largest `uint32_t`. -/
def emptyAllocHandle : Nat := 4294967295

/-- The value of `sizeof(AllocBuffer)` on the 64-bit target: two `uint32_t` counters,
131072 records of three 8-byte fields, 262144 four-byte handle entries. -/
def sizeofAllocBuffer : Nat := 8 + maxNumAllocs * 24 + maxNumHandles * 4

/-- The variable `clientDataOffset = sizeof(AllocBuffer) + scratchFootprint`. -/
def clientDataOffset (memMgrTest : Bool) : Nat :=
  sizeofAllocBuffer + scratchFootprint memMgrTest

/-! ## Data model -/

/-- How a run ends when it does not return. -/
inductive Fault where
  | assertion
  | undefined
  deriving DecidableEq, Repr

/-- The record `struct Alloc`. -/
structure Alloc where
  destPtr : Nat
  size : Nat
  internalHandle : Nat
  deriving DecidableEq, Repr

/-- The record `struct AllocBuffer`; the two arrays are maps from index to element,
every access being bounds-checked by the function that performs it. -/
structure AllocBuffer where
  numAllocs : Nat
  numHandles : Nat
  allocSet : Nat → Alloc
  handleConvertExternalInternal : Nat → Nat

/-- The file-scope variables of CPUMemory.cpp together with the contents of memory. -/
structure Globals where
  data : Nat
  scratch : Nat
  nextAllocAddress : Nat
  allocs : AllocBuffer
  memUsed : Nat
  bytes : Nat → Nat

/-- Pointwise update of an array or of memory. -/
def setAt {α : Type} (f : Nat → α) (i : Nat) (v : α) : Nat → α :=
  fun j => if j = i then v else f j

/-- Runs `body lo`, `body (lo + 1)`, ... for `count` iterations: the shape of the
counting `for` loops of RemoveAlloc. -/
def forLoop {σ : Type} (body : Nat → σ → σ) : Nat → Nat → σ → σ
  | _, 0, s => s
  | lo, count + 1, s => forLoop body (lo + 1) count (body lo s)

/-- The same loop with a body that may end the run. -/
def forLoopM {σ : Type} (body : Nat → σ → Except Fault σ) : Nat → Nat → σ → Except Fault σ
  | _, 0, s => Except.ok s
  | lo, count + 1, s =>
    match body lo s with
    | Except.ok s1 => forLoopM body (lo + 1) count s1
    | Except.error e => Except.error e

/-! ## Raw memory helpers -/

/-- Whether `len` bytes at `p` lie in the backing buffer, the `initAlloc` bytes that
`malloc` returned at `data`. -/
def inBuffer (memMgrTest : Bool) (g : Globals) (p len : Nat) : Bool :=
  decide (g.data ≤ p) && decide (p + len ≤ g.data + initAlloc memMgrTest)

/-- Whether `memcpy(dst, src, len)` is a defined call: nothing to copy, or both ranges
inside the buffer and disjoint. -/
def memcpyDefined (memMgrTest : Bool) (g : Globals) (dst src len : Nat) : Bool :=
  decide (len = 0) ||
    (inBuffer memMgrTest g dst len && inBuffer memMgrTest g src len &&
      (decide (dst + len ≤ src) || decide (src + len ≤ dst)))

/-- The effect of `memcpy(dst, src, len)` on memory. -/
def memcpy (m : Nat → Nat) (dst src len : Nat) : Nat → Nat :=
  fun a => if dst ≤ a ∧ a < dst + len then m (src + (a - dst)) else m a

/-- Whether `memcmp(p, q, len)` is a defined call: nothing to compare, or both ranges
inside the buffer. -/
def memcmpDefined (memMgrTest : Bool) (g : Globals) (p q len : Nat) : Bool :=
  decide (len = 0) || (inBuffer memMgrTest g p len && inBuffer memMgrTest g q len)

/-- Whether `memcmp(p, q, len) == 0`. -/
def memEqual (m : Nat → Nat) (p q : Nat) : Nat → Bool
  | 0 => true
  | len + 1 => decide (m p = m q) && memEqual m (p + 1) (q + 1) len

/-! ## The bookkeeping block as bytes -/

/-- The offset of the member `handleConvertExternalInternal` in `AllocBuffer`: the two
counters and the 131072 records of 24 bytes come first. -/
def handleTableOffset : Nat := 8 + maxNumAllocs * 24

/-- Byte `k` of the little-endian representation of `v`. -/
def byteOf (v k : Nat) : Nat := (v / 256 ^ k) % 256

/-- The little-endian value of the `width` bytes at `a`. -/
def wordAt (m : Nat → Nat) (a : Nat) : Nat → Nat
  | 0 => 0
  | width + 1 => m a % 256 + 256 * wordAt m (a + 1) width

/-- The pointer value that the member `Alloc::internalHandle` holds, given its
representation: the address of entry `internalHandle` of the handle table, or the value
itself for a representation from `2 ^ 64` on. -/
def handleEntryAddress (data internalHandle : Nat) : Nat :=
  if internalHandle < twoPow64 then data + handleTableOffset + 4 * internalHandle
  else internalHandle - twoPow64

/-- The representation of the pointer value `ptr` read from the bytes of the member
`Alloc::internalHandle`. -/
def backReference (data ptr : Nat) : Nat :=
  if data + handleTableOffset ≤ ptr ∧ (ptr - (data + handleTableOffset)) % 4 = 0 then
    (ptr - (data + handleTableOffset)) / 4
  else twoPow64 + ptr

/-- The byte at `offset` in the object `*allocs`, which starts at `data`: the counters
at 0 and 4, record `j` at `8 + 24 * j` (base address, size, back-reference), entry `x`
of the handle table at `handleTableOffset + 4 * x`. -/
def AllocBuffer.byteAt (data : Nat) (allocs : AllocBuffer) (offset : Nat) : Nat :=
  if offset < 4 then byteOf allocs.numAllocs offset
  else if offset < 8 then byteOf allocs.numHandles (offset - 4)
  else if offset < handleTableOffset then
    let alloc := allocs.allocSet ((offset - 8) / 24)
    let field := (offset - 8) % 24
    if field < 8 then byteOf alloc.destPtr field
    else if field < 16 then byteOf alloc.size (field - 8)
    else byteOf (handleEntryAddress data alloc.internalHandle) (field - 16)
  else
    byteOf (allocs.handleConvertExternalInternal ((offset - handleTableOffset) / 4))
      ((offset - handleTableOffset) % 4)

/-- The contents of memory: inside the bookkeeping block, the `sizeof(AllocBuffer)`
bytes at `data`, the bytes of `allocs`; elsewhere `bytes`. -/
def Globals.mem (g : Globals) : Nat → Nat :=
  fun a =>
    if g.data ≤ a ∧ a < g.data + sizeofAllocBuffer then
      AllocBuffer.byteAt g.data g.allocs (a - g.data)
    else g.bytes a

/-- Whether a write of `len` bytes at `p` reaches one of the `width` bytes at `a`. -/
def overlaps (p len a width : Nat) : Bool :=
  decide (0 < len) && decide (a < p + len) && decide (p < a + width)

/-- The bookkeeping after a raw write of `len` bytes at `p` that has left memory as
`m`: every counter, record field and table entry that the write reaches is read back
from `m`, the others are kept. -/
def AllocBuffer.reload (data : Nat) (allocs : AllocBuffer) (m : Nat → Nat) (p len : Nat) :
    AllocBuffer :=
  { numAllocs := if overlaps p len data 4 then wordAt m data 4 else allocs.numAllocs
    numHandles :=
      if overlaps p len (data + 4) 4 then wordAt m (data + 4) 4 else allocs.numHandles
    allocSet := fun j =>
      if j < maxNumAllocs then
        { destPtr :=
            if overlaps p len (data + 8 + 24 * j) 8 then wordAt m (data + 8 + 24 * j) 8
            else (allocs.allocSet j).destPtr
          size :=
            if overlaps p len (data + 8 + 24 * j + 8) 8 then
              wordAt m (data + 8 + 24 * j + 8) 8
            else (allocs.allocSet j).size
          internalHandle :=
            if overlaps p len (data + 8 + 24 * j + 16) 8 then
              backReference data (wordAt m (data + 8 + 24 * j + 16) 8)
            else (allocs.allocSet j).internalHandle }
      else allocs.allocSet j
    handleConvertExternalInternal := fun x =>
      if x < maxNumHandles ∧ overlaps p len (data + handleTableOffset + 4 * x) 4 = true then
        wordAt m (data + handleTableOffset + 4 * x) 4
      else allocs.handleConvertExternalInternal x }

/-- The state after a raw write of `len` bytes at `p` that has left memory as `m`. -/
def Globals.store (g : Globals) (m : Nat → Nat) (p len : Nat) : Globals :=
  { g with bytes := m, allocs := AllocBuffer.reload g.data g.allocs m p len }

/-! ## Bookkeeping: InitAllocBuffer, FindHandleAlloc, AddAlloc -/

/-- The function `InitAllocBuffer`. The first `memset` covers `sizeof(allocs)` bytes,
the size of a pointer: the eight bytes of `allocSet[0].destPtr`. The second zeroes the
whole handle table. Everything else keeps what `malloc` left there. -/
def InitAllocBuffer (uninitAllocSet : Nat → Alloc) : AllocBuffer :=
  { numAllocs := 0
    numHandles := 0
    allocSet := setAt uninitAllocSet 0
      { uninitAllocSet 0 with destPtr := twoPow64 - 1 }
    handleConvertExternalInternal := fun _ => 0 }

/-- The function `FindHandleAlloc`: the record found and the value left in
`*outIndex`. The record returned for a miss has `destPtr = nullptr` and `size = 0`;
its third field is never read. -/
def FindHandleAlloc (allocs : AllocBuffer) (handle outIndex : Nat) :
    Except Fault (Alloc × Nat) :=
  if ¬ handle < maxNumHandles then Except.error Fault.assertion
  else
    let convertedHandle := allocs.handleConvertExternalInternal handle
    if convertedHandle > allocs.numHandles ∨ convertedHandle = emptyAllocHandle then
      Except.ok ({ destPtr := 0, size := 0, internalHandle := 0 }, outIndex)
    else if ¬ convertedHandle < maxNumAllocs then Except.error Fault.undefined
    else Except.ok (allocs.allocSet convertedHandle, convertedHandle)

/-- The function `AddAlloc`: the handle issued and the new bookkeeping. -/
def AddAlloc (allocs : AllocBuffer) (destPtr size : Nat) : Except Fault (Nat × AllocBuffer) :=
  if ¬ allocs.numAllocs < maxNumAllocs then Except.error Fault.assertion
  else
    let handle := allocs.numHandles
    if ¬ handle < maxNumHandles then Except.error Fault.undefined
    else
      Except.ok (handle,
        { numAllocs := add32 allocs.numAllocs 1
          numHandles := add32 allocs.numHandles 1
          allocSet := setAt allocs.allocSet allocs.numAllocs
            { destPtr := destPtr, size := size, internalHandle := handle }
          handleConvertExternalInternal :=
            setAt allocs.handleConvertExternalInternal handle allocs.numAllocs })

/-! ## RemoveAlloc -/

/-- First loop of RemoveAlloc: `bytesShifting += allocSet[i].size`. -/
def sumSizesBody (allocSet : Nat → Alloc) (i acc : Nat) : Nat :=
  add64 acc (allocSet i).size

/-- Second loop of RemoveAlloc: the per-record guard, then
`allocSet[i].destPtr -= ndxedAlloc.size`. -/
def shiftPtrBody (memMgrTest : Bool) (freedSize : Nat) (i : Nat) (allocSet : Nat → Alloc) :
    Except Fault (Nat → Alloc) :=
  if ¬ (allocSet i).size < scratchFootprint memMgrTest then Except.error Fault.assertion
  else
    Except.ok (setAt allocSet i
      { allocSet i with destPtr := sub64 (allocSet i).destPtr freedSize })

/-- Third loop of RemoveAlloc: `std::swap(allocSet[i], allocSet[i + 1])`. -/
def bubbleBody (i : Nat) (allocSet : Nat → Alloc) : Nat → Alloc :=
  setAt (setAt allocSet i (allocSet (i + 1))) (i + 1) (allocSet i)

/-- Fourth loop of RemoveAlloc: `(*allocSet[i].internalHandle)--`. -/
def updateHandleBody (allocSet : Nat → Alloc) (i : Nat) (table : Nat → Nat) :
    Except Fault (Nat → Nat) :=
  let p := (allocSet i).internalHandle
  if ¬ p < maxNumHandles then Except.error Fault.undefined
  else Except.ok (setAt table p (sub32 (table p) 1))

/-- The function `RemoveAlloc`, acting on the globals it reads and writes
(`scratch`, `data`, `memUsed`, and `nextAllocAddress` through its last argument).
`ndxedAlloc`, `nextAlloc` and `bytesShifting` are locals; every loop reads
`allocs->numAllocs` from the bookkeeping as the copies before it have left it. -/
def RemoveAlloc (memMgrTest : Bool) (g : Globals) (ndx handle : Nat) : Except Fault Globals :=
  let allocs := g.allocs
  if ¬ (ndx < maxNumAllocs ∧ handle < maxNumHandles) then Except.error Fault.undefined
  else
    let ndxedAlloc := allocs.allocSet ndx
    let table0 := setAt allocs.handleConvertExternalInternal handle emptyAllocHandle
    if ndx ≠ sub32 allocs.numAllocs 1 then
      if ¬ (1 ≤ allocs.numAllocs ∧ allocs.numAllocs ≤ maxNumAllocs ∧ ndx + 1 < maxNumAllocs) then
        Except.error Fault.undefined
      else
        let count := allocs.numAllocs - (ndx + 1)
        let bytesShifting := forLoop (sumSizesBody allocs.allocSet) (ndx + 1) count 0
        let nextAlloc := allocs.allocSet (ndx + 1)
        if ¬ memcpyDefined memMgrTest g g.scratch nextAlloc.destPtr bytesShifting then
          Except.error Fault.undefined
        else
          let g0 : Globals :=
            { g with allocs := { allocs with handleConvertExternalInternal := table0 } }
          let g1 := g0.store (memcpy g0.mem g.scratch nextAlloc.destPtr bytesShifting)
            g.scratch bytesShifting
          if ¬ g1.allocs.numAllocs ≤ maxNumAllocs then Except.error Fault.undefined
          else
            match forLoopM (shiftPtrBody memMgrTest ndxedAlloc.size) (ndx + 1)
                (g1.allocs.numAllocs - (ndx + 1)) g1.allocs.allocSet with
            | Except.error e => Except.error e
            | Except.ok allocSet1 =>
              if ¬ memcpyDefined memMgrTest g ndxedAlloc.destPtr g.scratch bytesShifting then
                Except.error Fault.undefined
              else
                let g2 : Globals := { g1 with allocs := { g1.allocs with allocSet := allocSet1 } }
                let g3 := g2.store (memcpy g2.mem ndxedAlloc.destPtr g.scratch bytesShifting)
                  ndxedAlloc.destPtr bytesShifting
                if ¬ (1 ≤ g3.allocs.numAllocs ∧ g3.allocs.numAllocs ≤ maxNumAllocs) then
                  Except.error Fault.undefined
                else
                  let allocSet2 := forLoop bubbleBody ndx (sub32 g3.allocs.numAllocs 1 - ndx)
                    g3.allocs.allocSet
                  match forLoopM (updateHandleBody allocSet2) (ndx + 1)
                      (g3.allocs.numAllocs - (ndx + 1))
                      g3.allocs.handleConvertExternalInternal with
                  | Except.error e => Except.error e
                  | Except.ok table1 =>
                    let memUsed1 := sub64 g.memUsed ndxedAlloc.size
                    let next1 := add64 (add64 g.data (clientDataOffset memMgrTest)) memUsed1
                    let g4 : Globals :=
                      { g3 with
                        nextAllocAddress := next1
                        memUsed := memUsed1
                        allocs :=
                          { g3.allocs with
                            allocSet := allocSet2
                            handleConvertExternalInternal := table1 } }
                    if memMgrTest ∧
                        memcmpDefined memMgrTest g (sub64 next1 bytesShifting) g.scratch
                          bytesShifting = false then
                      Except.error Fault.undefined
                    else if memMgrTest ∧
                        memEqual g4.mem (sub64 next1 bytesShifting) g.scratch bytesShifting
                          = false then
                      Except.error Fault.assertion
                    else
                      Except.ok
                        { g4 with
                          allocs :=
                            { g4.allocs with numAllocs := sub32 g3.allocs.numAllocs 1 } }
    else
      Except.ok
        { g with
          nextAllocAddress := ndxedAlloc.destPtr
          memUsed := sub64 g.memUsed ndxedAlloc.size
          allocs :=
            { numAllocs := sub32 allocs.numAllocs 1
              numHandles := allocs.numHandles
              allocSet := allocs.allocSet
              handleConvertExternalInternal := table0 } }

/-! ## Public entry points -/

/-- The function `CPUMemory::Init`. The arguments are what `malloc` returned: the
address of the buffer and its uninitialised contents. -/
def Init (memMgrTest : Bool) (mallocResult : Nat) (uninitAllocSet : Nat → Alloc)
    (uninitBytes : Nat → Nat) : Globals :=
  { data := mallocResult
    scratch := add64 mallocResult sizeofAllocBuffer
    nextAllocAddress := add64 mallocResult (clientDataOffset memMgrTest)
    allocs := InitAllocBuffer uninitAllocSet
    memUsed := 0
    bytes := uninitBytes }

/-- The function `CPUMemory::GetHandlePtr(AllocHandle)`. -/
def GetHandlePtr (g : Globals) (handle : Nat) : Except Fault Nat :=
  match FindHandleAlloc g.allocs handle 0 with
  | Except.ok (alloc, _) => Except.ok alloc.destPtr
  | Except.error e => Except.error e

/-- The function `CPUMemory::AllocateRange`: the handle returned and the new state. -/
def AllocateRange (memMgrTest : Bool) (g : Globals) (rangeBytes : Nat) :
    Except Fault (Nat × Globals) :=
  let ptr := g.nextAllocAddress
  match AddAlloc g.allocs ptr rangeBytes with
  | Except.error e => Except.error e
  | Except.ok (handle, allocs1) =>
    let memUsed1 := add64 g.memUsed rangeBytes
    if ¬ memUsed1 < scratchFootprint memMgrTest then Except.error Fault.assertion
    else
      Except.ok (handle,
        { g with
          allocs := allocs1
          nextAllocAddress := add64 g.nextAllocAddress rangeBytes
          memUsed := memUsed1 })

/-- The function `CPUMemory::Free(AllocHandle)`. With `MEM_MGR_TEST` a miss is passed
over, without it the miss is a failed assertion. -/
def Free (memMgrTest : Bool) (g : Globals) (handle : Nat) : Except Fault Globals :=
  if ¬ handle < maxNumHandles then Except.error Fault.assertion
  else
    match FindHandleAlloc g.allocs handle 0 with
    | Except.error e => Except.error e
    | Except.ok (alloc, allocNdx) =>
      if alloc.destPtr ≠ 0 ∧ alloc.size ≠ 0 then RemoveAlloc memMgrTest g allocNdx handle
      else if memMgrTest then Except.ok g
      else Except.error Fault.assertion

/-! ## Client accesses through an array view -/

/-- The struct template `CPUMemory::ArrayAllocHandle<type>`. -/
structure ArrayAllocHandle where
  arrayLen : Nat
  handle : Nat
  dataOffset : Nat
  deriving DecidableEq, Repr

/-- The address `ArrayAllocHandle<type>::operator[]` yields for `view[elt]`:
`(GetHandlePtr<type>(handle) + dataOffset)[elt]`, with `sizeofType = sizeof(type)`.
Forming it from a null pointer is undefined. -/
def ArrayAllocHandle.elementAddress (sizeofType : Nat) (g : Globals) (view : ArrayAllocHandle)
    (elt : Nat) : Except Fault Nat :=
  match GetHandlePtr g view.handle with
  | Except.error e => Except.error e
  | Except.ok ptr =>
    if ptr = 0 then Except.error Fault.undefined
    else Except.ok (add64 (add64 ptr (view.dataOffset * sizeofType)) (elt * sizeofType))

/-- The client statement `view[elt] = value` for a view of `char`. -/
def writeChar (memMgrTest : Bool) (g : Globals) (view : ArrayAllocHandle) (elt value : Nat) :
    Except Fault Globals :=
  match ArrayAllocHandle.elementAddress 1 g view elt with
  | Except.error e => Except.error e
  | Except.ok a =>
    if ¬ inBuffer memMgrTest g a 1 then Except.error Fault.undefined
    else Except.ok (g.store (setAt g.mem a (value % 256)) a 1)

/-- The client expression `view[elt]` for a view of `char`. -/
def readChar (memMgrTest : Bool) (g : Globals) (view : ArrayAllocHandle) (elt : Nat) :
    Except Fault Nat :=
  match ArrayAllocHandle.elementAddress 1 g view elt with
  | Except.error e => Except.error e
  | Except.ok a =>
    if ¬ inBuffer memMgrTest g a 1 then Except.error Fault.undefined
    else Except.ok (g.mem a)

/-- The `len` bytes a handle resolves to, lowest address first. -/
def readBytes (g : Globals) (handle : Nat) (len : Nat) : Except Fault (List Nat) :=
  match GetHandlePtr g handle with
  | Except.error e => Except.error e
  | Except.ok ptr => Except.ok ((List.range len).map fun k => g.mem (ptr + k))

/-! ## Call sequences -/

/-- One call a client makes after `Init`. -/
inductive Call where
  | allocate (rangeBytes : Nat)
  | free (handle : Nat)
  | write (handle elt value : Nat)
  deriving DecidableEq, Repr

/-- Performs one call; an `allocate` appends the handle it returned to the log. -/
def step (memMgrTest : Bool) (st : Globals × List Nat) : Call → Except Fault (Globals × List Nat)
  | Call.allocate rangeBytes =>
    match AllocateRange memMgrTest st.1 rangeBytes with
    | Except.error e => Except.error e
    | Except.ok (h, g1) => Except.ok (g1, st.2 ++ [h])
  | Call.free handle =>
    match Free memMgrTest st.1 handle with
    | Except.error e => Except.error e
    | Except.ok g1 => Except.ok (g1, st.2)
  | Call.write handle elt value =>
    match writeChar memMgrTest st.1 { arrayLen := elt + 1, handle := handle, dataOffset := 0 }
        elt value with
    | Except.error e => Except.error e
    | Except.ok g1 => Except.ok (g1, st.2)

/-- Performs the calls in order, stopping at the first fault. -/
def run (memMgrTest : Bool) : Globals × List Nat → List Call → Except Fault (Globals × List Nat)
  | st, [] => Except.ok st
  | st, c :: cs =>
    match step memMgrTest st c with
    | Except.error e => Except.error e
    | Except.ok st1 => run memMgrTest st1 cs

/-- A buffer as `malloc` may return it: at address 65536, every byte and every
bookkeeping field zero. -/
def freshArena (memMgrTest : Bool) : Globals × List Nat :=
  (Init memMgrTest 65536 (fun _ => { destPtr := 0, size := 0, internalHandle := 0 })
    (fun _ => 0), [])

/-- The address of the first client byte of `freshArena`. -/
def clientStart (memMgrTest : Bool) : Nat := 65536 + clientDataOffset memMgrTest

/-- Four one-byte allocations (handles 0 to 3) holding the bytes 97, 98, 99, 100. -/
def fourChars : List Call :=
  [Call.allocate 1, Call.allocate 1, Call.allocate 1, Call.allocate 1,
   Call.write 0 0 97, Call.write 1 0 98, Call.write 2 0 99, Call.write 3 0 100]

/-- Four allocations of 64, 128, 32 and 16 bytes (handles 0 to 3). -/
def fourBlocks : List Call :=
  [Call.allocate 64, Call.allocate 128, Call.allocate 32, Call.allocate 16]

/-- Scenario A of the specification up to the free: 64, 128 and 32 bytes (handles 0 to 2). -/
def scenarioA : List Call :=
  [Call.allocate 64, Call.allocate 128, Call.allocate 32]

/-- An 8-byte, an empty and another 8-byte allocation (handles 0 to 2), then a free of
the empty one and a free of the first. -/
def emptyInMiddle : List Call :=
  [Call.allocate 8, Call.allocate 0, Call.allocate 8, Call.free 1, Call.free 0]

/-- The overload `CPUMemory::Free(ArrayAllocHandle<HandleType>)`: the assertion on the
offset, then the handle-level `Free`. -/
def FreeArray (memMgrTest : Bool) (g : Globals) (view : ArrayAllocHandle) : Except Fault Globals :=
  if ¬ view.dataOffset = 0 then Except.error Fault.assertion
  else Free memMgrTest g view.handle

/-- The sizes of the live records, slot 0 first. -/
def liveSizes (allocs : AllocBuffer) : List Nat :=
  (List.range allocs.numAllocs).map fun i => (allocs.allocSet i).size

/-- The address at which record `j` lies when the records before it are packed from
`start` on without gaps. -/
def packedBase (start : Nat) (allocs : AllocBuffer) (j : Nat) : Nat :=
  start + ((List.range j).map fun i => (allocs.allocSet i).size).sum

/-- The calls `Allocate(1); Free(first); Allocate(1); Free(first + 1); ...`, `count`
pairs: every handle is freed before the next one is requested. -/
def churn : Nat → Nat → List Call
  | _, 0 => []
  | first, count + 1 => Call.allocate 1 :: Call.free first :: churn (first + 1) count

/-- The call `Allocate(8)` on a fresh arena of the diagnostic build: the handle and the
state it returns. -/
def firstAllocation : Nat × Globals :=
  match AllocateRange true (freshArena true).1 8 with
  | Except.ok r => r
  | Except.error _ => (0, (freshArena true).1)

/-- The value a run returned, or `fallback` when it ended in a fault. -/
def okOr {α : Type} (x : Except Fault α) (fallback : α) : α :=
  match x with
  | Except.ok r => r
  | Except.error _ => fallback

/-- Wrapping `uint64_t` multiplication. -/
def mul64 (a b : Nat) : Nat := (a * b) % twoPow64

/-- The struct template `CPUMemory::SingleAllocHandle<type>`. -/
structure SingleAllocHandle where
  handle : Nat
  deriving DecidableEq, Repr

/-- The operator `ArrayAllocHandle<type>::operator+`: a copy of the view whose
`dataOffset` is set to `offset`. -/
def ArrayAllocHandle.plus (view : ArrayAllocHandle) (offset : Nat) : ArrayAllocHandle :=
  { view with dataOffset := offset }

/-- The function `ArrayAllocHandle<type>::GetBytesHandle`, with `sizeofType =
sizeof(innerType)`: the count is scaled, handle and `dataOffset` are passed on as they
are. -/
def ArrayAllocHandle.GetBytesHandle (sizeofType : Nat) (view : ArrayAllocHandle) :
    ArrayAllocHandle :=
  { arrayLen := mul64 view.arrayLen sizeofType, handle := view.handle,
    dataOffset := view.dataOffset }

/-- The effect of `memset(p, value, len)` on memory. -/
def memset (m : Nat → Nat) (p value len : Nat) : Nat → Nat :=
  fun a => if p ≤ a ∧ a < p + len then value else m a

/-- The result of `memcmp(p, q, len)`: zero when the ranges agree, otherwise the
difference of the first pair of bytes that differ (the standard fixes only its sign). -/
def memcmp (m : Nat → Nat) (p q : Nat) : Nat → Int
  | 0 => 0
  | len + 1 => if m p = m q then memcmp m (p + 1) (q + 1) len else (m p : Int) - (m q : Int)

/-- The function `CPUMemory::ZeroData(AllocHandle, uint64_t)`. -/
def ZeroData (memMgrTest : Bool) (g : Globals) (handle size : Nat) : Except Fault Globals :=
  match GetHandlePtr g handle with
  | Except.error e => Except.error e
  | Except.ok ptr =>
    if ¬ (size = 0 ∨ inBuffer memMgrTest g ptr size = true) then Except.error Fault.undefined
    else Except.ok (g.store (memset g.mem ptr 0 size) ptr size)

/-- The function `CPUMemory::FlushData(AllocHandle, uint64_t)`. -/
def FlushData (memMgrTest : Bool) (g : Globals) (handle size : Nat) : Except Fault Globals :=
  match GetHandlePtr g handle with
  | Except.error e => Except.error e
  | Except.ok ptr =>
    if ¬ (size = 0 ∨ inBuffer memMgrTest g ptr size = true) then Except.error Fault.undefined
    else Except.ok (g.store (memset g.mem ptr 255 size) ptr size)

/-- The overload `CPUMemory::ZeroData(ArrayAllocHandle<type>)`. -/
def ZeroDataArray (sizeofType : Nat) (memMgrTest : Bool) (g : Globals) (view : ArrayAllocHandle) :
    Except Fault Globals :=
  ZeroData memMgrTest g view.handle (mul64 view.arrayLen sizeofType)

/-- The overload `CPUMemory::ZeroData(SingleAllocHandle<type>)`. -/
def ZeroDataSingle (sizeofType : Nat) (memMgrTest : Bool) (g : Globals)
    (single : SingleAllocHandle) : Except Fault Globals :=
  ZeroData memMgrTest g single.handle sizeofType

/-- The overload `CPUMemory::FlushData(ArrayAllocHandle<type>)`. -/
def FlushDataArray (sizeofType : Nat) (memMgrTest : Bool) (g : Globals) (view : ArrayAllocHandle) :
    Except Fault Globals :=
  FlushData memMgrTest g view.handle (mul64 view.arrayLen sizeofType)

/-- The overload `CPUMemory::FlushData(SingleAllocHandle<type>)`. -/
def FlushDataSingle (sizeofType : Nat) (memMgrTest : Bool) (g : Globals)
    (single : SingleAllocHandle) : Except Fault Globals :=
  FlushData memMgrTest g single.handle sizeofType

/-- The overload `CPUMemory::CopyData(ArrayAllocHandle<type> src, ArrayAllocHandle<type>
dst)`. -/
def CopyData (sizeofType : Nat) (memMgrTest : Bool) (g : Globals) (src dst : ArrayAllocHandle) :
    Except Fault Globals :=
  match GetHandlePtr g src.handle with
  | Except.error e => Except.error e
  | Except.ok ptrSrc =>
    match GetHandlePtr g dst.handle with
    | Except.error e => Except.error e
    | Except.ok ptrDst =>
      if ¬ src.arrayLen ≤ dst.arrayLen then Except.error Fault.assertion
      else if ¬ memcpyDefined memMgrTest g ptrDst ptrSrc (mul64 src.arrayLen sizeofType) = true then
        Except.error Fault.undefined
      else
        Except.ok
          (g.store (memcpy g.mem ptrDst ptrSrc (mul64 src.arrayLen sizeofType)) ptrDst
            (mul64 src.arrayLen sizeofType))

/-- The overload `CPUMemory::CompareData(ArrayAllocHandle<type> a, ArrayAllocHandle<type>
b)`. -/
def CompareData (sizeofType : Nat) (memMgrTest : Bool) (g : Globals) (a b : ArrayAllocHandle) :
    Except Fault Int :=
  match GetHandlePtr g a.handle with
  | Except.error e => Except.error e
  | Except.ok ptrA =>
    match GetHandlePtr g b.handle with
    | Except.error e => Except.error e
    | Except.ok ptrB =>
      if ¬ a.arrayLen = b.arrayLen then Except.error Fault.assertion
      else if ¬ memcmpDefined memMgrTest g ptrA ptrB (mul64 a.arrayLen sizeofType) = true then
        Except.error Fault.undefined
      else Except.ok (memcmp g.mem ptrA ptrB (mul64 a.arrayLen sizeofType))

/-- The function template `CPUMemory::AllocateArray<arrayType>(num)`, with `sizeofType =
sizeof(arrayType)`. -/
def AllocateArray (sizeofType : Nat) (memMgrTest : Bool) (g : Globals) (num : Nat) :
    Except Fault (ArrayAllocHandle × Globals) :=
  match AllocateRange memMgrTest g (mul64 sizeofType num) with
  | Except.error e => Except.error e
  | Except.ok (handle, g1) =>
    Except.ok ({ arrayLen := num, handle := handle, dataOffset := 0 }, g1)

/-- The constructor `CPUMemoryLoan::CPUMemoryLoan(uint32_t loanSize)`: the member `mem`
and the new state. -/
def CPUMemoryLoan.create (memMgrTest : Bool) (g : Globals) (loanSize : Nat) :
    Except Fault (ArrayAllocHandle × Globals) :=
  AllocateArray 1 memMgrTest g loanSize

/-- The destructor of `CPUMemoryLoan`. -/
def CPUMemoryLoan.destroy (memMgrTest : Bool) (g : Globals) (mem : ArrayAllocHandle) :
    Except Fault Globals :=
  Free memMgrTest g mem.handle

/-- A scope that holds one `CPUMemoryLoan` and makes no other allocator call:
construction, then destruction. -/
def loanScope (memMgrTest : Bool) (g : Globals) (loanSize : Nat) :
    Except Fault (ArrayAllocHandle × Globals) :=
  match CPUMemoryLoan.create memMgrTest g loanSize with
  | Except.error e => Except.error e
  | Except.ok (mem, g1) =>
    match CPUMemoryLoan.destroy memMgrTest g1 mem with
    | Except.error e => Except.error e
    | Except.ok g2 => Except.ok (mem, g2)

/-! ## The shape of the test program -/

/-- The fault a run ended with, if any. -/
def faultOf {α : Type} : Except Fault α → Option Fault
  | Except.ok _ => none
  | Except.error e => some e

/-- The allocation phase of the test program: one array of `char` per size, the views
returned in order. -/
def allocateAll (memMgrTest : Bool) :
    Globals → List Nat → Except Fault (List ArrayAllocHandle × Globals)
  | g, [] => Except.ok ([], g)
  | g, size :: sizes =>
    match AllocateArray 1 memMgrTest g size with
    | Except.error e => Except.error e
    | Except.ok (view, g1) =>
      match allocateAll memMgrTest g1 sizes with
      | Except.error e => Except.error e
      | Except.ok (views, g2) => Except.ok (view :: views, g2)

/-- One round of the free phase of the test program: `Free` of a view, then a scoped
loan of the given size. -/
def testRound (memMgrTest : Bool) (g : Globals) (round : ArrayAllocHandle × Nat) :
    Except Fault Globals :=
  match FreeArray memMgrTest g round.1 with
  | Except.error e => Except.error e
  | Except.ok g1 =>
    match loanScope memMgrTest g1 round.2 with
    | Except.error e => Except.error e
    | Except.ok (_, g2) => Except.ok g2

/-- The free phase of the test program. -/
def testRounds (memMgrTest : Bool) : Globals → List (ArrayAllocHandle × Nat) → Except Fault Globals
  | g, [] => Except.ok g
  | g, round :: rounds =>
    match testRound memMgrTest g round with
    | Except.error e => Except.error e
    | Except.ok g1 => testRounds memMgrTest g1 rounds

/-- The whole test program: the allocation phase, then the free phase, where each round
names the view to free by its position in the allocation order. -/
def testProgram (memMgrTest : Bool) (g : Globals) (sizes : List Nat) (rounds : List (Nat × Nat)) :
    Except Fault Globals :=
  match allocateAll memMgrTest g sizes with
  | Except.error e => Except.error e
  | Except.ok (views, g1) =>
    testRounds memMgrTest g1
      (rounds.map fun r =>
        (views.getD r.1 { arrayLen := 0, handle := emptyAllocHandle, dataOffset := 0 }, r.2))

/-- Eight bytes 1, 2, ..., 8 in one array of `char` (handle 0). -/
def eightChars : List Call :=
  [Call.allocate 8, Call.write 0 0 1, Call.write 0 1 2, Call.write 0 2 3, Call.write 0 3 4,
   Call.write 0 4 5, Call.write 0 5 6, Call.write 0 6 7, Call.write 0 7 8]

/-- The state after `eightChars` on a fresh arena of the diagnostic build. -/
def eightCharsArena : Globals :=
  (okOr (run true (freshArena true) eightChars) (freshArena true)).1

/-- The state after `Allocate(40)` on a fresh arena of the diagnostic build: room for ten
4-byte elements under handle 0 (Scenario D). -/
def tenElements : Globals :=
  (okOr (run true (freshArena true) [Call.allocate 40]) (freshArena true)).1

/-- The total size of the `cnt` records in slots `lo`, `lo + 1`, ...: for `lo = i + 1`
and `cnt = numAllocs - (i + 1)` the span `S` behind slot `i`. -/
def spanSum (allocSet : Nat → Alloc) (lo cnt : Nat) : Nat :=
  ((List.range cnt).map fun k => (allocSet (lo + k)).size).sum

/-- The state after `fourChars` on a fresh arena of the diagnostic build. -/
def fourCharsArena : Globals :=
  (okOr (run true (freshArena true) fourChars) (freshArena true)).1

/-- The state after `Free` of handle 1 in `fourCharsArena`. -/
def fourCharsFreed : Globals :=
  okOr (Free true fourCharsArena 1) fourCharsArena

/-- Ten calls on a fresh arena of the diagnostic build after which the cursor has come
down to `data`, the start of the bookkeeping block. `Free(1)` and `Free(3)` each leave
the entry of the handle behind them on a dead slot, so `Free(2)` and `Free(4)` subtract
268435456 and 272629771 bytes a second time; the used-bytes counter wraps to
`2 ^ 64 - clientDataOffset`, the cursor is `data`, and the last request, of
`clientDataOffset + 8` bytes, passes the byte budget and is handed the range at
`data` (handle 5). -/
def cursorAtData : List Call :=
  [Call.allocate 1, Call.allocate 268435456, Call.allocate 1, Call.free 1, Call.free 2,
   Call.allocate 272629771, Call.allocate 1, Call.free 3, Call.free 4,
   Call.allocate 541065232]

/-- After `cursorAtData`: eight more bytes (handle 6) in which the client stores the
32-bit values 3 and 2, then `Free(5)`. -/
def countersOverwritten : List Call :=
  cursorAtData ++ [Call.allocate 8, Call.write 6 0 3, Call.write 6 4 2, Call.free 5]

/-- After `cursorAtData`: eight more bytes (handle 6) in which the client stores the
32-bit value 2. -/
def interiorOverCounters : List Call :=
  cursorAtData ++ [Call.allocate 8, Call.write 6 0 2]

/-- After `cursorAtData`: eight more bytes (handle 6) in which the client stores the
32-bit values 3 and 7, and a store of 1 into byte 3145760 of the allocation of handle
5, which is the lowest byte of entry 6 of the handle table. -/
def newestRedirected : List Call :=
  cursorAtData ++
    [Call.allocate 8, Call.write 6 0 3, Call.write 6 4 7, Call.write 5 3145760 1]

/-- Allocations of 16, 32 and 32 bytes (handles 0 to 2), `Free(1)`, `Free(0)`, another
32 bytes (handle 3), and two stores through handle 2. Handles 2 and 3 are never
freed. -/
def overlappingLive : List Call :=
  [Call.allocate 16, Call.allocate 32, Call.allocate 32, Call.free 1, Call.free 0,
   Call.allocate 32, Call.write 2 0 1, Call.write 2 16 2]

/-- The calls on a fresh arena of the diagnostic build, then `Free(handle)`: the state
the `Free` returns. -/
def runThenFree (calls : List Call) (handle : Nat) : Except Fault Globals :=
  match run true (freshArena true) calls with
  | Except.error e => Except.error e
  | Except.ok r => Free true r.1 handle

/-! ## Clients that free in stack order -/

/-- A call of a client that frees in stack order, as scoped loans do: `push` is
`Allocate(rangeBytes)`, `pop` is `Free` of the most recently allocated handle that is
still live. -/
inductive StackCall where
  | push (rangeBytes : Nat)
  | pop
  deriving DecidableEq, Repr

/-- Performs one call of such a client. The second component is the stack of live
handles, oldest first; a `pop` with nothing live makes no call. -/
def stackStep (memMgrTest : Bool) (st : Globals × List Nat) :
    StackCall → Except Fault (Globals × List Nat)
  | StackCall.push rangeBytes =>
    match AllocateRange memMgrTest st.1 rangeBytes with
    | Except.error e => Except.error e
    | Except.ok (h, g1) => Except.ok (g1, st.2 ++ [h])
  | StackCall.pop =>
    match st.2.getLast? with
    | none => Except.ok st
    | some h =>
      match Free memMgrTest st.1 h with
      | Except.error e => Except.error e
      | Except.ok g1 => Except.ok (g1, st.2.dropLast)

/-- Performs the calls in order, stopping at the first fault. -/
def runStack (memMgrTest : Bool) :
    Globals × List Nat → List StackCall → Except Fault (Globals × List Nat)
  | st, [] => Except.ok st
  | st, c :: cs =>
    match stackStep memMgrTest st c with
    | Except.error e => Except.error e
    | Except.ok st1 => runStack memMgrTest st1 cs

/-- The state and the live handles after `Allocate(8); Allocate(16); Free(newest)` in
stack order on a fresh arena of the diagnostic build. -/
def nestedLoans : Globals × List Nat :=
  okOr (runStack true (freshArena true)
    [StackCall.push 8, StackCall.push 16, StackCall.pop]) (freshArena true)

/-- What holds of the bookkeeping while a client frees in stack order: the buffer lies
in the address space, the counters are within the capacities, the live handles are the
back-references of the live records in slot order, each of them was issued and has the
slot of its record as its table entry, no live record is empty, the records are packed
from the start of the client region, and the used-bytes counter and the cursor agree
with the sum of the live sizes. -/
structure StackInv (memMgrTest : Bool) (g : Globals) (live : List Nat) : Prop where
  buffer : g.data + sizeofAllocBuffer + initAlloc memMgrTest ≤ twoPow64
  numAllocs_le : g.allocs.numAllocs ≤ maxNumAllocs
  numHandles_le : g.allocs.numHandles ≤ maxNumHandles
  issued : g.allocs.numAllocs ≤ g.allocs.numHandles
  live_eq : live
    = (List.range g.allocs.numAllocs).map fun k => (g.allocs.allocSet k).internalHandle
  backref_lt : ∀ k, k < g.allocs.numAllocs →
    (g.allocs.allocSet k).internalHandle < g.allocs.numHandles
  entry : ∀ k, k < g.allocs.numAllocs →
    g.allocs.handleConvertExternalInternal (g.allocs.allocSet k).internalHandle = k
  size_ne : ∀ k, k < g.allocs.numAllocs → (g.allocs.allocSet k).size ≠ 0
  packed : ∀ k, k < g.allocs.numAllocs →
    (g.allocs.allocSet k).destPtr
      = packedBase (g.data + clientDataOffset memMgrTest) g.allocs k
  used : g.memUsed = (liveSizes g.allocs).sum
  below : g.memUsed < scratchFootprint memMgrTest
  cursor : g.nextAllocAddress = g.data + clientDataOffset memMgrTest + g.memUsed

end CPUMemory


/-! ## Properties -/

namespace CPUMemory

/-- C1 (fails on the code). After four one-byte allocations holding 97, 98, 99, 100,
`Free` of handle 1 returns, and the live handle 2, which read the byte 99 before the
free, now resolves to the address of handle 3 and reads 100: its contents are not
preserved. The last loop of RemoveAlloc starts at `ndx + 1` after the records have
been moved down, so the table entry of the record moved into slot `ndx` stays one too
high. -/
theorem C1_free_changes_bytes_of_other_live_handle :
    ((run true (freshArena true) fourChars).toOption.map fun r =>
        (r.2, (readBytes r.1 0 1).toOption, (readBytes r.1 2 1).toOption,
          (readBytes r.1 3 1).toOption))
      = some ([0, 1, 2, 3], some [97], some [99], some [100]) ∧
    ((run true (freshArena true) (fourChars ++ [Call.free 1])).toOption.map fun r =>
        ((readBytes r.1 0 1).toOption, (readBytes r.1 2 1).toOption,
          (readBytes r.1 3 1).toOption))
      = some (some [97], some [100], some [100]) := by
  decide!

/-- C2 (fails on the code). With sizes 64, 128, 32, 16 allocated in order and the
second handle freed (n = 4, k = 1), the third handle, which resolved to client start
+ 192, resolves afterwards to client start + 96 and not to its previous address minus
128 (client start + 64); the first and the fourth behave as stated. -/
theorem C2_handle_after_freed_one_resolves_elsewhere :
    ((run true (freshArena true) fourBlocks).toOption.map fun r =>
        (r.2, (GetHandlePtr r.1 0).toOption, (GetHandlePtr r.1 2).toOption,
          (GetHandlePtr r.1 3).toOption))
      = some ([0, 1, 2, 3], some (clientStart true), some (clientStart true + 192),
          some (clientStart true + 224)) ∧
    ((run true (freshArena true) (fourBlocks ++ [Call.free 1])).toOption.map fun r =>
        ((GetHandlePtr r.1 0).toOption, (GetHandlePtr r.1 2).toOption,
          (GetHandlePtr r.1 3).toOption))
      = some (some (clientStart true), some (clientStart true + 96),
          some (clientStart true + 96)) := by
  decide!

/-- C3 (fails on the code). After allocations of 64, 128, 32, 16 bytes and `Free` of
handle 1, the used-bytes counter is 112; `Free` of the live handle 2, allocated with
32 bytes, lowers it to 96, that is by 16, the size of the record of handle 3 that the
stale table entry of handle 2 designates. -/
theorem C3_free_lowers_memUsed_by_another_size :
    ((run true (freshArena true) (fourBlocks ++ [Call.free 1])).toOption.map fun r =>
        (r.1.memUsed, r.1.allocs.numAllocs, r.1.allocs.handleConvertExternalInternal 2))
      = some (112, 3, 2) ∧
    ((run true (freshArena true) (fourBlocks ++ [Call.free 1, Call.free 2])).toOption.map
        fun r => (r.1.memUsed, r.1.allocs.numAllocs))
      = some (96, 2) := by
  decide!

/-- C4 (fails on the code). In Scenario A (64, 128, 32 bytes; the second freed: slot
i = 1 of n = 3) the record of slot 2 ends in slot 1, with its base lowered by 128, but
the handle-table entry its back-reference designates, entry 2, is still 2 and not 1;
the entry the loop decremented is that of the freed handle. -/
theorem C4_moved_record_keeps_old_table_entry :
    ((run true (freshArena true) (scenarioA ++ [Call.free 1])).toOption.map fun r =>
        (r.2, r.1.allocs.numAllocs, r.1.allocs.allocSet 1,
          r.1.allocs.handleConvertExternalInternal (r.1.allocs.allocSet 1).internalHandle,
          r.1.allocs.handleConvertExternalInternal 0,
          r.1.allocs.handleConvertExternalInternal 1))
      = some ([0, 1, 2], 2,
          { destPtr := clientStart true + 64, size := 32, internalHandle := 2 },
          2, 0, emptyAllocHandle - 1) := by
  decide!

/-- C5 (fails on the code). After allocations of 64, 128, 32, 16 bytes and `Free` of
handle 1, the two live handles 2 and 3 resolve to the same record: the same address,
client start + 96, so their byte ranges overlap. -/
theorem C5_two_live_handles_resolve_to_one_range :
    ((run true (freshArena true) (fourBlocks ++ [Call.free 1])).toOption.map fun r =>
        ((FindHandleAlloc r.1.allocs 2 0).toOption, (FindHandleAlloc r.1.allocs 3 0).toOption))
      = some
          (some ({ destPtr := clientStart true + 96, size := 16, internalHandle := 3 }, 2),
           some ({ destPtr := clientStart true + 96, size := 16, internalHandle := 3 }, 2)) := by
  decide!

/-- C6 (fails on the code). In the diagnostic build `Allocate` of
`scratchFootprint - 1` bytes on a fresh arena succeeds, and the record it creates ends
`sizeof(AllocBuffer) - 1` bytes past the end of the buffer of `initAlloc` bytes: the
assertion of AllocateRange compares the used bytes with `scratchFootprint`, not with
the size of the client-data region. -/
theorem C6_record_ends_past_the_buffer :
    ((run true (freshArena true) [Call.allocate (scratchFootprint true - 1)]).toOption.map
        fun r =>
          ((r.1.allocs.allocSet 0).destPtr - r.1.data, (r.1.allocs.allocSet 0).size,
            r.1.nextAllocAddress - r.1.data, r.1.allocs.numAllocs))
      = some (clientDataOffset true, scratchFootprint true - 1,
          initAlloc true + sizeofAllocBuffer - 1, 1) ∧
    initAlloc true < clientDataOffset true + (scratchFootprint true - 1) := by
  decide!

/-- C7 (fails on the code). In the diagnostic build, `Free` of the handle returned by
`Allocate(0)` returns and the handle still resolves to its record (a non-null address,
the record still counted as live): `Free` takes a found record of size 0 for a miss. -/
theorem C7_freed_empty_allocation_still_resolves :
    ((run true (freshArena true) [Call.allocate 0, Call.free 0]).toOption.map fun r =>
        (r.2, (FindHandleAlloc r.1.allocs 0 0).toOption, r.1.allocs.numAllocs,
          r.1.allocs.handleConvertExternalInternal 0))
      = some ([0],
          some ({ destPtr := clientStart true, size := 0, internalHandle := 0 }, 0), 1, 0) := by
  decide!

/-- C8 (fails on the code). In the diagnostic build, after allocations of 8, 0 and 8
bytes, `Free` of handle 1 and `Free` of handle 0, a second `Free` of handle 1 is not a
no-op: the live-record count goes from 2 to 1, the used bytes from 8 to 0, the cursor
moves back by 8 and the entry of handle 1 changes, the record removed being that of
the live handle 2. -/
theorem C8_second_free_changes_the_state :
    ((run true (freshArena true) emptyInMiddle).toOption.map fun r =>
        (r.2, r.1.allocs.numAllocs, r.1.memUsed, r.1.nextAllocAddress,
          r.1.allocs.handleConvertExternalInternal 1, r.1.allocs.allocSet 1))
      = some ([0, 1, 2], 2, 8, clientStart true + 8, 1,
          { destPtr := clientStart true, size := 8, internalHandle := 2 }) ∧
    ((run true (freshArena true) (emptyInMiddle ++ [Call.free 1])).toOption.map fun r =>
        (r.1.allocs.numAllocs, r.1.memUsed, r.1.nextAllocAddress,
          r.1.allocs.handleConvertExternalInternal 1))
      = some (1, 0, clientStart true, emptyAllocHandle) := by
  decide!

/-- C9 (fails on the code). In the diagnostic build, after one allocation of 16 bytes
(handle 0), `Free` of handle 1, which no `Allocate` has returned, removes the record
of handle 0: the live-record count goes from 1 to 0, the used bytes from 16 to 0 and
the cursor back to the client start. InitAllocBuffer fills the handle table with 0,
not with the sentinel, so every unissued handle designates slot 0. -/
theorem C9_free_of_unissued_handle_removes_a_record :
    ((run true (freshArena true) [Call.allocate 16]).toOption.map fun r =>
        (r.2, r.1.allocs.numAllocs, r.1.memUsed, r.1.nextAllocAddress,
          r.1.allocs.handleConvertExternalInternal 1))
      = some ([0], 1, 16, clientStart true + 16, 0) ∧
    ((run true (freshArena true) [Call.allocate 16, Call.free 1]).toOption.map fun r =>
        (r.2, r.1.allocs.numAllocs, r.1.memUsed, r.1.nextAllocAddress,
          r.1.allocs.handleConvertExternalInternal 1))
      = some ([0], 0, 0, clientStart true, emptyAllocHandle) := by
  decide!

/-- C10 (fails on the code). In Scenario A after the free of handle 1, the table entry
of handle 1 is `emptyAllocHandle - 1`, which differs from the sentinel, while
FindHandleAlloc reports a miss (null address, size 0) for it: the loop that updates the
handles decrements the entry of the freed record. -/
theorem C10_entry_differs_from_sentinel_yet_unresolved :
    ((run true (freshArena true) (scenarioA ++ [Call.free 1])).toOption.map fun r =>
        (r.1.allocs.handleConvertExternalInternal 1,
          decide (r.1.allocs.handleConvertExternalInternal 1 = emptyAllocHandle),
          (FindHandleAlloc r.1.allocs 1 0).toOption, (GetHandlePtr r.1 1).toOption))
      = some (4294967294, false,
          some ({ destPtr := 0, size := 0, internalHandle := 0 }, 0), some 0) := by
  decide!

/-- C11 (fails on the code). After allocations of 64, 128, 32, 16 bytes and `Free` of the
handles 1, 2 and 3, each one live and freed once, a single record is live, of size 64,
while the bump cursor stands 80 bytes past the client start. The third free is given
the dead slot 2 by the stale entry of handle 3 and subtracts its size, 16, although
handle 3's record had already been removed by the free of handle 2. -/
theorem C11_live_sizes_differ_from_cursor :
    ((run true (freshArena true)
        (fourBlocks ++ [Call.free 1, Call.free 2, Call.free 3])).toOption.map fun r =>
        (r.2, r.1.allocs.numAllocs, liveSizes r.1.allocs, (liveSizes r.1.allocs).sum,
          r.1.nextAllocAddress - clientStart true, r.1.memUsed))
      = some ([0, 1, 2, 3], 1, [64], 64, 80, 80) := by
  decide!

/-- C12 (fails on the code). After allocations of 64, 128, 32, 16 bytes, `Free` of the
handles 1, 2, 3 and one more `Allocate(8)`, the record in slot 1 has base client start
+ 80, whereas the record before it ends at client start + 64: a gap of 16 bytes. -/
theorem C12_records_not_packed :
    ((run true (freshArena true)
        (fourBlocks ++ [Call.free 1, Call.free 2, Call.free 3, Call.allocate 8])).toOption.map
        fun r =>
          (r.2, r.1.allocs.numAllocs, r.1.allocs.allocSet 0, r.1.allocs.allocSet 1,
            packedBase (clientStart true) r.1.allocs 1))
      = some ([0, 1, 2, 3, 4], 2,
          { destPtr := clientStart true, size := 64, internalHandle := 0 },
          { destPtr := clientStart true + 80, size := 8, internalHandle := 4 },
          clientStart true + 64) := by
  decide!

/-- C13. A handle value of `maxNumHandles` or more makes `Free`, `FindHandleAlloc` and
`GetHandlePtr` end in a failed assertion, in both build configurations and in every
state: the result does not depend on the handle table or on anything else in the
state, so the table is not read. -/
theorem C13_out_of_range_handle_is_fatal (memMgrTest : Bool) (g : Globals) (handle outIndex : Nat)
    (hrange : maxNumHandles ≤ handle) :
    Free memMgrTest g handle = Except.error Fault.assertion ∧
    FindHandleAlloc g.allocs handle outIndex = Except.error Fault.assertion ∧
    GetHandlePtr g handle = Except.error Fault.assertion := by
  have hnot : ¬ handle < maxNumHandles := Nat.not_lt.mpr hrange
  refine ⟨?_, ?_, ?_⟩
  · simp [Free, hnot]
  · simp [FindHandleAlloc, hnot]
  · simp [GetHandlePtr, FindHandleAlloc, hnot]

/-- Witness for C13: the sentinel handle of a default-constructed view on a fresh arena
of the production build. -/
theorem C13_out_of_range_handle_is_fatal_witness :
    maxNumHandles ≤ emptyAllocHandle ∧
    Free false (freshArena false).1 emptyAllocHandle = Except.error Fault.assertion ∧
    FindHandleAlloc (freshArena false).1.allocs emptyAllocHandle 0
      = Except.error Fault.assertion ∧
    GetHandlePtr (freshArena false).1 emptyAllocHandle = Except.error Fault.assertion :=
  ⟨by decide, C13_out_of_range_handle_is_fatal false (freshArena false).1 emptyAllocHandle 0
    (by decide)⟩

/-- C16 (fails on the code). With 16 bytes in use, `Allocate(2^64 - 8)` succeeds in the
diagnostic build although 16 + (2^64 - 8) is far above `scratchFootprint`: the sum
wraps to 8, which passes the assertion, the used-bytes counter becomes 8 and the
cursor moves back by 8. -/
theorem C16_wrapped_sum_passes_the_budget_check :
    ((run true (freshArena true) [Call.allocate 16]).toOption.map fun r =>
        (r.2, r.1.memUsed, r.1.nextAllocAddress))
      = some ([0], 16, clientStart true + 16) ∧
    ((run true (freshArena true)
        [Call.allocate 16, Call.allocate (twoPow64 - 8)]).toOption.map fun r =>
        (r.2, r.1.memUsed, r.1.nextAllocAddress, r.1.allocs.numAllocs,
          r.1.allocs.allocSet 1))
      = some ([0, 1], 8, clientStart true + 8, 2,
          { destPtr := clientStart true + 16, size := twoPow64 - 8, internalHandle := 1 }) ∧
    ¬ 16 + (twoPow64 - 8) < scratchFootprint true := by
  decide!

/-- What a returning `AllocateRange` has done, together with the capacity checks it has
passed. -/
theorem AllocateRange_ok (memMgrTest : Bool) (g : Globals) (size handle : Nat) (g1 : Globals)
    (hok : AllocateRange memMgrTest g size = Except.ok (handle, g1)) :
    (g.allocs.numAllocs < maxNumAllocs ∧ g.allocs.numHandles < maxNumHandles ∧
      add64 g.memUsed size < scratchFootprint memMgrTest) ∧
    g1.allocs.allocSet g.allocs.numAllocs
      = { destPtr := g.nextAllocAddress, size := size, internalHandle := handle } ∧
    g1.nextAllocAddress = add64 g.nextAllocAddress size ∧
    (g.nextAllocAddress + size < twoPow64 → g1.nextAllocAddress = g.nextAllocAddress + size) ∧
    g1.memUsed = add64 g.memUsed size ∧
    (g.memUsed + size < twoPow64 → g1.memUsed = g.memUsed + size) ∧
    g1.allocs.numAllocs = g.allocs.numAllocs + 1 ∧
    handle = g.allocs.numHandles ∧
    g1.allocs.numHandles = g.allocs.numHandles + 1 ∧
    g1.allocs.handleConvertExternalInternal handle = g.allocs.numAllocs ∧
    (∀ j, j ≠ g.allocs.numAllocs → g1.allocs.allocSet j = g.allocs.allocSet j) ∧
    (∀ x, x ≠ handle →
      g1.allocs.handleConvertExternalInternal x = g.allocs.handleConvertExternalInternal x) ∧
    g1.bytes = g.bytes ∧ g1.data = g.data ∧ g1.scratch = g.scratch := by
  unfold AllocateRange AddAlloc at hok
  by_cases hn : g.allocs.numAllocs < maxNumAllocs
  · by_cases hh : g.allocs.numHandles < maxNumHandles
    · by_cases hb : add64 g.memUsed size < scratchFootprint memMgrTest
      · simp only [hn, hh, hb, not_true_eq_false, if_false, Except.ok.injEq, Prod.mk.injEq] at hok
        obtain ⟨hhandle, hg⟩ := hok
        subst hhandle
        subst hg
        have hn1 : add32 g.allocs.numAllocs 1 = g.allocs.numAllocs + 1 := by
          unfold add32 twoPow32
          unfold maxNumAllocs at hn
          omega
        have hh1 : add32 g.allocs.numHandles 1 = g.allocs.numHandles + 1 := by
          unfold add32 twoPow32
          unfold maxNumHandles at hh
          omega
        refine ⟨⟨hn, hh, hb⟩, by simp [setAt], rfl, ?_, rfl, ?_, hn1, rfl, hh1, by simp [setAt],
          ?_, ?_, rfl, rfl, rfl⟩
        · intro hlt
          simp only [add64]
          exact Nat.mod_eq_of_lt hlt
        · intro hlt
          simp only [add64]
          exact Nat.mod_eq_of_lt hlt
        · intro j hj
          simp [setAt, hj]
        · intro x hx
          simp [setAt, hx]
      · simp [hn, hh, hb] at hok
    · simp [hn, hh] at hok
  · simp [hn] at hok

/-- C17. A successful `AllocateRange(size)` in a state with `n` live records and cursor
`c` stores the record (c, size, back-reference to the returned handle's entry) in slot
`n`, moves the cursor and the used-bytes counter up by `size` in 64-bit arithmetic
(exactly `c + size` and `memUsed + size` when these do not pass `2 ^ 64`), makes the
count `n + 1`, returns the handle `numHandles` and writes `n` into its table entry; every
other slot, every other table entry and all of memory are unchanged. -/
theorem C17_allocate_effect (memMgrTest : Bool) (g : Globals) (size handle : Nat) (g1 : Globals)
    (hok : AllocateRange memMgrTest g size = Except.ok (handle, g1)) :
    g1.allocs.allocSet g.allocs.numAllocs
      = { destPtr := g.nextAllocAddress, size := size, internalHandle := handle } ∧
    g1.nextAllocAddress = add64 g.nextAllocAddress size ∧
    (g.nextAllocAddress + size < twoPow64 → g1.nextAllocAddress = g.nextAllocAddress + size) ∧
    g1.memUsed = add64 g.memUsed size ∧
    (g.memUsed + size < twoPow64 → g1.memUsed = g.memUsed + size) ∧
    g1.allocs.numAllocs = g.allocs.numAllocs + 1 ∧
    handle = g.allocs.numHandles ∧
    g1.allocs.numHandles = g.allocs.numHandles + 1 ∧
    g1.allocs.handleConvertExternalInternal handle = g.allocs.numAllocs ∧
    (∀ j, j ≠ g.allocs.numAllocs → g1.allocs.allocSet j = g.allocs.allocSet j) ∧
    (∀ x, x ≠ handle →
      g1.allocs.handleConvertExternalInternal x = g.allocs.handleConvertExternalInternal x) ∧
    g1.bytes = g.bytes ∧ g1.data = g.data ∧ g1.scratch = g.scratch :=
  (AllocateRange_ok memMgrTest g size handle g1 hok).2

/-- Witness for C17: `Allocate(8)` on a fresh arena of the diagnostic build. -/
theorem C17_allocate_effect_witness :
    AllocateRange true (freshArena true).1 8
      = Except.ok (firstAllocation.1, firstAllocation.2) ∧
    firstAllocation.2.allocs.allocSet 0
      = { destPtr := clientStart true, size := 8, internalHandle := firstAllocation.1 } ∧
    firstAllocation.2.allocs.numAllocs = 1 ∧
    firstAllocation.1 = 0 :=
  ⟨rfl,
   (C17_allocate_effect true (freshArena true).1 8 firstAllocation.1 firstAllocation.2 rfl).1,
   (C17_allocate_effect true (freshArena true).1 8 firstAllocation.1
      firstAllocation.2 rfl).2.2.2.2.2.1,
   (C17_allocate_effect true (freshArena true).1 8 firstAllocation.1
      firstAllocation.2 rfl).2.2.2.2.2.2.1⟩

/-- C20. `Free` of an array view with a non-zero offset is a failed assertion in every
state and for every handle, so no state is produced; the same view with offset zero
is passed to the handle-level `Free` of its handle. -/
theorem C20_offset_view_free_rejected (memMgrTest : Bool) (g : Globals) (view : ArrayAllocHandle)
    (hoffset : view.dataOffset ≠ 0) :
    FreeArray memMgrTest g view = Except.error Fault.assertion ∧
    FreeArray memMgrTest g { view with dataOffset := 0 } = Free memMgrTest g view.handle := by
  constructor
  · simp [FreeArray, hoffset]
  · simp [FreeArray]

/-- Witness for C20: the view of an 8-element `char` array offset to element 4, on the
arena holding that one allocation. -/
theorem C20_offset_view_free_rejected_witness :
    FreeArray true firstAllocation.2 { arrayLen := 8, handle := 0, dataOffset := 4 }
      = Except.error Fault.assertion ∧
    FreeArray true firstAllocation.2 { arrayLen := 8, handle := 0, dataOffset := 0 }
      = Free true firstAllocation.2 0 :=
  C20_offset_view_free_rejected true firstAllocation.2
    { arrayLen := 8, handle := 0, dataOffset := 4 } (by decide)

/-! ### RemoveAlloc and Free -/

/-- Decrementing a count between 1 and `maxNumAllocs` does not wrap. -/
theorem sub32_one_eq (n : Nat) (h1 : 1 ≤ n) (h2 : n ≤ maxNumAllocs) : sub32 n 1 = n - 1 := by
  unfold sub32 twoPow32
  unfold maxNumAllocs at h2
  omega

/-- Twice the scratch size is the buffer size. -/
theorem initAlloc_eq (memMgrTest : Bool) :
    initAlloc memMgrTest = scratchFootprint memMgrTest + scratchFootprint memMgrTest := by
  cases memMgrTest <;> decide

/-- The size of the bookkeeping block. -/
theorem sizeofAllocBuffer_eq : sizeofAllocBuffer = 4194312 := by decide

/-- What a returning `RemoveAlloc` has done: either the last-slot branch, which only
rewrites the entry of `handle`, or the compaction branch, whose two copies go through
the staging area at `scratch`; either way fewer than `maxNumAllocs` records are left. -/
theorem RemoveAlloc_ok (memMgrTest : Bool) (g : Globals) (ndx handle : Nat) (g1 : Globals)
    (h : RemoveAlloc memMgrTest g ndx handle = Except.ok g1) :
    ndx < maxNumAllocs ∧ handle < maxNumHandles ∧
    g1.data = g.data ∧ g1.scratch = g.scratch ∧
    g1.allocs.numAllocs < maxNumAllocs ∧
    ((ndx = sub32 g.allocs.numAllocs 1 ∧
        g1.allocs.numAllocs = sub32 g.allocs.numAllocs 1 ∧
        g1.allocs.numHandles = g.allocs.numHandles ∧
        g1.allocs.allocSet = g.allocs.allocSet ∧
        g1.allocs.handleConvertExternalInternal
          = setAt g.allocs.handleConvertExternalInternal handle emptyAllocHandle ∧
        g1.bytes = g.bytes) ∨
     (ndx ≠ sub32 g.allocs.numAllocs 1 ∧ 1 ≤ g.allocs.numAllocs ∧
        g.allocs.numAllocs ≤ maxNumAllocs ∧ ndx + 1 < maxNumAllocs ∧
        ∃ gB : Globals, gB.data = g.data ∧
          gB.bytes
            = memcpy
                (Globals.mem
                  { g with
                    allocs :=
                      { g.allocs with
                        handleConvertExternalInternal :=
                          setAt g.allocs.handleConvertExternalInternal handle
                            emptyAllocHandle } })
                g.scratch (g.allocs.allocSet (ndx + 1)).destPtr
                (forLoop (sumSizesBody g.allocs.allocSet) (ndx + 1)
                  (g.allocs.numAllocs - (ndx + 1)) 0) ∧
          g1.bytes
            = memcpy (Globals.mem gB) (g.allocs.allocSet ndx).destPtr g.scratch
                (forLoop (sumSizesBody g.allocs.allocSet) (ndx + 1)
                  (g.allocs.numAllocs - (ndx + 1)) 0))) := by
  unfold RemoveAlloc at h
  by_cases hg : ndx < maxNumAllocs ∧ handle < maxNumHandles
  · simp only [hg, and_self, not_true_eq_false, if_false] at h
    refine ⟨hg.1, hg.2, ?_⟩
    by_cases hlast : ndx = sub32 g.allocs.numAllocs 1
    · simp only [hlast, ne_eq, not_true_eq_false, if_false, Except.ok.injEq] at h
      subst h
      exact ⟨rfl, rfl, by rw [← hlast]; exact hg.1, Or.inl ⟨hlast, rfl, rfl, rfl, rfl, rfl⟩⟩
    · simp only [ne_eq, hlast, not_false_eq_true, if_true] at h
      by_cases hguard : 1 ≤ g.allocs.numAllocs ∧ g.allocs.numAllocs ≤ maxNumAllocs ∧
          ndx + 1 < maxNumAllocs
      · simp only [hguard, and_self, not_true_eq_false, if_false] at h
        split at h
        · exact absurd h (by simp)
        · split at h
          · exact absurd h (by simp)
          · split at h
            · exact absurd h (by simp)
            · split at h
              · exact absurd h (by simp)
              · split at h
                · exact absurd h (by simp)
                · rename_i hn3
                  split at h
                  · exact absurd h (by simp)
                  · split at h
                    · exact absurd h (by simp)
                    · split at h
                      · exact absurd h (by simp)
                      · simp only [Except.ok.injEq] at h
                        subst h
                        have hn3a := not_not.mp hn3
                        refine ⟨rfl, rfl, ?_, Or.inr ⟨hlast, hguard.1, hguard.2.1, hguard.2.2, ?_⟩⟩
                        · have hdec := sub32_one_eq _ hn3a.1 hn3a.2
                          simp only [hdec]
                          omega
                        · refine ⟨?gB, ?h1, ?h2, ?h3⟩
                          case h3 => exact rfl
                          case h1 => rfl
                          case h2 => rfl
      · simp [hguard] at h
  · simp [hg] at h

/-- C18 (fails on the code). After `cursorAtData` handle 5 resolves to `data`, the
address of the bookkeeping block. The client stores the 32-bit values 3 and 2 in the
next allocation; `Free(5)` stages these eight bytes and copies them to the freed
address, over the counters `numAllocs` and `numHandles`, passes the comparison with the
staged copy and returns with `numHandles = 2`. The next `Allocate` returns handle 2,
which the third `Allocate` had returned: the handles issued are 0, 1, 2, 3, 4, 5, 6,
2. -/
theorem C18_handle_returned_twice :
    ((run true (freshArena true) cursorAtData).toOption.map fun r =>
        (r.2, (GetHandlePtr r.1 5).toOption, r.1.allocs.numAllocs, r.1.allocs.allocSet 1))
      = some ([0, 1, 2, 3, 4, 5], some 65536, 2,
          { destPtr := 65536, size := 541065232, internalHandle := 5 }) ∧
    ((run true (freshArena true) countersOverwritten).toOption.map fun r =>
        (r.2, r.1.allocs.numAllocs, r.1.allocs.numHandles))
      = some ([0, 1, 2, 3, 4, 5, 6], 2, 2) ∧
    ((run true (freshArena true) (countersOverwritten ++ [Call.allocate 541065224])).toOption.map
        fun r => r.2)
      = some [0, 1, 2, 3, 4, 5, 6, 2] := by
  decide!

/-- C19 (fails on the code). After `newestRedirected` handle 6 is the most recently
allocated handle and has not been freed; handle 5 is live too, its record is in slot 1
and its allocation starts at `data`. A store of the client into that allocation has set
the table entry of handle 6 to 1. `Free(6)` then removes the record of slot 1, the one
of handle 5: afterwards slot 1 holds the record of handle 6, the table entry of handle
5 is 0 instead of 1, and handle 5 resolves to the start of the client region instead of
`data`. -/
theorem C19_free_of_newest_handle_moves_another_record :
    ((run true (freshArena true) newestRedirected).toOption.map fun r =>
        (r.2.getLast?, r.1.allocs.handleConvertExternalInternal 6,
          r.1.allocs.handleConvertExternalInternal 5, r.1.allocs.allocSet 1))
      = some (some 6, 1, 1, { destPtr := 65536, size := 541065232, internalHandle := 5 }) ∧
    ((run true (freshArena true) newestRedirected).toOption.map fun r =>
        (GetHandlePtr r.1 5).toOption) = some (some 65536) ∧
    ((runThenFree newestRedirected 6).toOption.map fun g =>
        (g.allocs.handleConvertExternalInternal 5, g.allocs.allocSet 1, g.allocs.allocSet 2))
      = some (0, { destPtr := 65536, size := 8, internalHandle := 6 },
          { destPtr := 65536, size := 541065232, internalHandle := 5 }) ∧
    ((runThenFree newestRedirected 6).toOption.map fun g => (GetHandlePtr g 5).toOption)
      = some (some (clientStart true)) := by
  decide!

/-- One round of `churn`: on an arena with no live record, `Allocate(1)` returns the
handle `numHandles` and `Free` of it takes the last-slot branch, so the arena has
again no live record, no byte in use and the same cursor, with one more handle
issued. -/
theorem churn_round (g : Globals) (log : List Nat) (first : Nat)
    (h0 : g.allocs.numAllocs = 0) (hf : g.allocs.numHandles = first)
    (hlt : first < maxNumHandles) (hm : g.memUsed = 0) (hp : g.nextAllocAddress ≠ 0) :
    ∃ g1, run true (g, log) [Call.allocate 1, Call.free first] = Except.ok (g1, log ++ [first]) ∧
      g1.allocs.numAllocs = 0 ∧ g1.allocs.numHandles = first + 1 ∧ g1.memUsed = 0 ∧
      g1.nextAllocAddress = g.nextAllocAddress := by
  have hb : add64 0 1 < scratchFootprint true := by decide
  have hmax : (0 : Nat) < maxNumAllocs := by decide
  cases hA : AllocateRange true g 1 with
  | error e =>
    exfalso
    unfold AllocateRange AddAlloc at hA
    simp [h0, hf, hlt, hm, hb, hmax] at hA
  | ok r =>
    obtain ⟨h, gA⟩ := r
    obtain ⟨_, hslot, _, _, hmem, _, hn1, hhandle, hh1, hentry, _, _, _, _, _⟩ :=
      AllocateRange_ok true g 1 h gA hA
    rw [hf] at hhandle hh1
    subst hhandle
    rw [h0] at hslot hn1 hentry
    rw [hm] at hmem
    have hmem1 : gA.memUsed = 1 := by rw [hmem]; decide
    have hsub32 : sub32 1 1 = 0 := by decide
    have hsub64 : sub64 1 1 = 0 := by decide
    have hsent : ¬ (0 > h + 1 ∨ 0 = emptyAllocHandle) := by
      unfold emptyAllocHandle
      omega
    have hR : ∃ gB, RemoveAlloc true gA 0 h = Except.ok gB ∧ gB.allocs.numAllocs = 0 ∧
        gB.allocs.numHandles = h + 1 ∧ gB.memUsed = 0 ∧
        gB.nextAllocAddress = g.nextAllocAddress := by
      refine ⟨{ gA with
          nextAllocAddress := g.nextAllocAddress
          memUsed := 0
          allocs :=
            { numAllocs := 0
              numHandles := h + 1
              allocSet := gA.allocs.allocSet
              handleConvertExternalInternal :=
                setAt gA.allocs.handleConvertExternalInternal h emptyAllocHandle } },
        ?_, rfl, rfl, rfl, rfl⟩
      unfold RemoveAlloc
      simp [hmax, hlt, hn1, hsub32, hslot, hmem1, hsub64, hh1]
    obtain ⟨gB, hRB, p1, p2, p3, p4⟩ := hR
    have hF : Free true gA h = Except.ok gB := by
      unfold Free FindHandleAlloc
      simp only [hlt, hentry, hh1, hsent, hmax, hslot, not_true_eq_false, if_false, ne_eq, hp,
        not_false_eq_true, one_ne_zero, and_self, if_true]
      exact hRB
    refine ⟨gB, ?_, p1, p2, p3, p4⟩
    simp only [run, step, hA, hF]

/-- The whole of `churn`: `count` rounds from an arena with no live record keep it so
and issue `count` more handles. -/
theorem churn_run :
    ∀ (count first : Nat) (g : Globals) (log : List Nat),
      g.allocs.numAllocs = 0 → g.allocs.numHandles = first →
      first + count ≤ maxNumHandles → g.memUsed = 0 → g.nextAllocAddress ≠ 0 →
      ∃ g1 log1, run true (g, log) (churn first count) = Except.ok (g1, log1) ∧
        log1.length = log.length + count ∧ g1.allocs.numAllocs = 0 ∧
        g1.allocs.numHandles = first + count ∧ g1.memUsed = 0 := by
  intro count
  induction count with
  | zero =>
    intro first g log h0 hf _ hm _
    exact ⟨g, log, by simp [churn, run], by simp, h0, by simpa using hf, hm⟩
  | succ count ih =>
    intro first g log h0 hf hle hm hp
    obtain ⟨gB, hrun, hB0, hBf, hBm, hBp⟩ := churn_round g log first h0 hf (by omega) hm hp
    obtain ⟨g1, log1, hrest, hlen, h10, h1f, h1m⟩ :=
      ih (first + 1) gB (log ++ [first]) hB0 hBf (by omega) hBm (by rw [hBp]; exact hp)
    refine ⟨g1, log1, ?_, ?_, h10, ?_, h1m⟩
    · simp only [churn, run] at hrun ⊢
      cases hs1 : step true (g, log) (Call.allocate 1) with
      | error e => simp [hs1] at hrun
      | ok st1 =>
        simp only [hs1] at hrun ⊢
        cases hs2 : step true st1 (Call.free first) with
        | error e => simp [hs2] at hrun
        | ok st2 =>
          simp only [hs2, Except.ok.injEq] at hrun ⊢
          rw [hrun]
          exact hrest
    · rw [hlen]
      simp
      omega
    · rw [h1f]
      omega

/-- C15 (fails on the code). After `maxNumHandles` rounds of `Allocate(1); Free`, with
`maxNumHandles` handles issued and every one of them freed, one more `Allocate(1)`
does not end in a failed assertion: AddAlloc asserts only `numAllocs < maxNumAllocs`
and goes on to write entry `maxNumHandles` of the handle table, one past its end,
which is the undefined access the embedding reports. -/
theorem C15_no_assertion_on_handle_exhaustion :
    ∃ st, run true (freshArena true) (churn 0 maxNumHandles) = Except.ok st ∧
      st.2.length = maxNumHandles ∧ st.1.allocs.numHandles = maxNumHandles ∧
      st.1.allocs.numAllocs = 0 ∧ st.1.memUsed = 0 ∧
      AllocateRange true st.1 1 = Except.error Fault.undefined ∧
      AllocateRange true st.1 1 ≠ Except.error Fault.assertion := by
  obtain ⟨g1, log1, hrun, hlen, h0, hf, hm⟩ :=
    churn_run maxNumHandles 0 (freshArena true).1 (freshArena true).2 rfl rfl (by omega) rfl
      (by decide)
  have hund : AllocateRange true g1 1 = Except.error Fault.undefined := by
    unfold AllocateRange AddAlloc
    have hmax : (0 : Nat) < maxNumAllocs := by decide
    simp [h0, hf, hmax]
  refine ⟨(g1, log1), hrun, ?_, ?_, h0, hm, hund, ?_⟩
  · rw [hlen]
    simp [freshArena]
  · rw [hf]
    omega
  · rw [hund]
    simp

/-- C23 (fails on the code). For a view of a 4-byte element type with element offset 4
over the allocation of handle 0, the first element resolves to base + 16, whereas the
first byte of the byte view returned by `GetBytesHandle` resolves to base + 4: the
offset is handed over unscaled, an element offset read as a byte offset. With offset
0 the two addresses agree. -/
theorem C23_byte_view_of_offset_view_starts_elsewhere :
    ArrayAllocHandle.GetBytesHandle 4 { arrayLen := 6, handle := 0, dataOffset := 4 }
      = { arrayLen := 24, handle := 0, dataOffset := 4 } ∧
    (ArrayAllocHandle.elementAddress 4 (okOr (run true (freshArena true) [Call.allocate 40])
        (freshArena true)).1 { arrayLen := 6, handle := 0, dataOffset := 4 } 0).toOption
      = some (clientStart true + 16) ∧
    (ArrayAllocHandle.elementAddress 1 (okOr (run true (freshArena true) [Call.allocate 40])
        (freshArena true)).1
        (ArrayAllocHandle.GetBytesHandle 4 { arrayLen := 6, handle := 0, dataOffset := 4 })
        0).toOption
      = some (clientStart true + 4) := by
  decide!

/-- C24 (fails on the code). On an array of eight `char` holding 1, ..., 8, `ZeroData`
of the view with offset 4 and count 4, whose first element resolves to base + 4,
zeroes the four bytes at the base of the allocation and leaves the bytes of the view
as they were; `FlushData` sets the same four bytes to 255. The typed overloads pass
only the handle and the length on. -/
theorem C24_fill_of_offset_view_hits_the_base :
    (ArrayAllocHandle.elementAddress 1 eightCharsArena
        { arrayLen := 4, handle := 0, dataOffset := 4 } 0).toOption
      = some (clientStart true + 4) ∧
    (readBytes eightCharsArena 0 8).toOption = some [1, 2, 3, 4, 5, 6, 7, 8] ∧
    ((ZeroDataArray 1 true eightCharsArena
        { arrayLen := 4, handle := 0, dataOffset := 4 }).toOption.map fun g =>
        (readBytes g 0 8).toOption)
      = some (some [0, 0, 0, 0, 5, 6, 7, 8]) ∧
    ((FlushDataArray 1 true eightCharsArena
        { arrayLen := 4, handle := 0, dataOffset := 4 }).toOption.map fun g =>
        (readBytes g 0 8).toOption)
      = some (some [255, 255, 255, 255, 5, 6, 7, 8]) := by
  decide!

/-- C25 (fails on the code). In the diagnostic build a scoped loan of size 0 on a fresh
arena is not released: after its destruction the loan's handle 0 still resolves to its
record and the live-record count is 1, where it was 0 before the loan. `Free` takes
the found record of size 0 for a miss. -/
theorem C25_empty_loan_is_not_released :
    (freshArena true).1.allocs.numAllocs = 0 ∧
    ((loanScope true (freshArena true).1 0).toOption.map fun r =>
        (r.1, r.2.allocs.numAllocs, r.2.memUsed, r.2.nextAllocAddress))
      = some ({ arrayLen := 0, handle := 0, dataOffset := 0 }, 1, 0, clientStart true) ∧
    ((loanScope true (freshArena true).1 0).toOption.map fun r =>
        (FindHandleAlloc r.2.allocs r.1.handle 0).toOption)
      = some (some ({ destPtr := clientStart true, size := 0, internalHandle := 0 }, 0)) ∧
    faultOf (loanScope false (freshArena false).1 0) = some Fault.assertion := by
  decide!

/-- C26 (fails on the code). In the diagnostic build, after allocations of 100, 1 and 1
bytes, the rounds `Free(third); loan(1)`, `Free(first); loan(5)` leave the entry of the
second handle on the dead slot 1, which the loan has overwritten with its 5-byte
record; `Free(second)` subtracts those 5 bytes from the 1 byte in use, the counter
wraps to `2 ^ 64 - 4`, and the construction of the next loan fails the assertion
`memUsed < scratchFootprint` of AllocateRange. -/
theorem C26_test_shaped_run_fails_an_assertion :
    ((testProgram true (freshArena true).1 [100, 1, 1] [(2, 1), (0, 5)]).toOption.map fun g =>
        (g.allocs.numAllocs, g.memUsed, g.allocs.handleConvertExternalInternal 1,
          g.allocs.allocSet 1))
      = some (1, 1, 1, { destPtr := clientStart true + 1, size := 5, internalHandle := 4 }) ∧
    ((testProgram true (freshArena true).1 [100, 1, 1] [(2, 1), (0, 5)]).toOption.map fun g =>
        (FreeArray true g { arrayLen := 1, handle := 1, dataOffset := 0 }).toOption.map
          fun g1 => (g1.allocs.numAllocs, g1.memUsed))
      = some (some (0, twoPow64 - 4)) ∧
    faultOf (testProgram true (freshArena true).1 [100, 1, 1] [(2, 1), (0, 5), (1, 1)])
      = some Fault.assertion := by
  decide!

/-- C21. For a base view (offset 0) whose handle resolves to a non-null address `ptr`,
element `j` of `view + n` and element `n + j` of `view` resolve to the same address,
`ptr + (n + j) * sizeof(type)` in pointer arithmetic (exactly that sum when it does
not pass `2 ^ 64`), and `view + n` has the handle and the element count of `view`. -/
theorem C21_offset_view_aliases_base_view (sizeofType : Nat) (g : Globals)
    (view : ArrayAllocHandle) (n j ptr : Nat) (hbase : view.dataOffset = 0)
    (hlive : GetHandlePtr g view.handle = Except.ok ptr) (hptr : ptr ≠ 0) :
    ArrayAllocHandle.elementAddress sizeofType g (view.plus n) j
      = ArrayAllocHandle.elementAddress sizeofType g view (n + j) ∧
    ArrayAllocHandle.elementAddress sizeofType g (view.plus n) j
      = Except.ok (add64 ptr ((n + j) * sizeofType)) ∧
    (ptr + (n + j) * sizeofType < twoPow64 →
      ArrayAllocHandle.elementAddress sizeofType g (view.plus n) j
        = Except.ok (ptr + (n + j) * sizeofType)) ∧
    (view.plus n).handle = view.handle ∧ (view.plus n).arrayLen = view.arrayLen := by
  have hsum : add64 (add64 ptr (n * sizeofType)) (j * sizeofType)
      = add64 ptr ((n + j) * sizeofType) := by
    unfold add64 twoPow64
    rw [Nat.add_mul]
    omega
  have hzero : add64 (add64 ptr (0 * sizeofType)) ((n + j) * sizeofType)
      = add64 ptr ((n + j) * sizeofType) := by
    unfold add64 twoPow64
    omega
  have hplus : ArrayAllocHandle.elementAddress sizeofType g (view.plus n) j
      = Except.ok (add64 ptr ((n + j) * sizeofType)) := by
    unfold ArrayAllocHandle.elementAddress ArrayAllocHandle.plus
    simp only [hlive, hptr, if_false, hsum]
  have hview : ArrayAllocHandle.elementAddress sizeofType g view (n + j)
      = Except.ok (add64 ptr ((n + j) * sizeofType)) := by
    unfold ArrayAllocHandle.elementAddress
    simp only [hlive, hptr, if_false, hbase, hzero]
  refine ⟨by rw [hplus, hview], hplus, ?_, rfl, rfl⟩
  intro hlt
  rw [hplus]
  unfold add64
  rw [Nat.mod_eq_of_lt hlt]

/-- Witness for C21: Scenario D, ten 4-byte elements, the view offset to element 4 and
its element 5. -/
theorem C21_offset_view_aliases_base_view_witness :
    ArrayAllocHandle.elementAddress 4 tenElements
        (ArrayAllocHandle.plus { arrayLen := 10, handle := 0, dataOffset := 0 } 4) 5
      = ArrayAllocHandle.elementAddress 4 tenElements
          { arrayLen := 10, handle := 0, dataOffset := 0 } (4 + 5) ∧
    ArrayAllocHandle.elementAddress 4 tenElements
        (ArrayAllocHandle.plus { arrayLen := 10, handle := 0, dataOffset := 0 } 4) 5
      = Except.ok (add64 (clientStart true) ((4 + 5) * 4)) ∧
    (clientStart true + (4 + 5) * 4 < twoPow64 →
      ArrayAllocHandle.elementAddress 4 tenElements
          (ArrayAllocHandle.plus { arrayLen := 10, handle := 0, dataOffset := 0 } 4) 5
        = Except.ok (clientStart true + (4 + 5) * 4)) ∧
    (ArrayAllocHandle.plus { arrayLen := 10, handle := 0, dataOffset := 0 } 4).handle = 0 ∧
    (ArrayAllocHandle.plus { arrayLen := 10, handle := 0, dataOffset := 0 } 4).arrayLen = 10 :=
  C21_offset_view_aliases_base_view 4 tenElements { arrayLen := 10, handle := 0, dataOffset := 0 }
    4 5 (clientStart true) rfl rfl (by decide)

/-- C22 (fails on the code). After `overlappingLive` the handles 2 and 3, both returned
for 32 bytes and neither freed, resolve to client start + 16 and client start + 32: the
two ranges of 32 bytes overlap. `CopyData` of the view of handle 2 into the view of
handle 3 is a `memcpy` between overlapping ranges, which C leaves undefined; and if the
copy reads the 32 source bytes before it writes them, `CompareData` of the two views
returns -1 afterwards, not 0. -/
theorem C22_copy_between_overlapping_live_ranges :
    ((run true (freshArena true) overlappingLive).toOption.map fun r =>
        (r.2, (GetHandlePtr r.1 2).toOption, (GetHandlePtr r.1 3).toOption))
      = some ([0, 1, 2, 3], some (clientStart true + 16), some (clientStart true + 32)) ∧
    ((run true (freshArena true) overlappingLive).toOption.map fun r =>
        (memcpyDefined true r.1 (clientStart true + 32) (clientStart true + 16) 32,
          faultOf (CopyData 1 true r.1 { arrayLen := 32, handle := 2, dataOffset := 0 }
            { arrayLen := 32, handle := 3, dataOffset := 0 })))
      = some (false, some Fault.undefined) ∧
    ((run true (freshArena true) overlappingLive).toOption.map fun r =>
        (CompareData 1 true
          (r.1.store (memcpy r.1.mem (clientStart true + 32) (clientStart true + 16) 32)
            (clientStart true + 32) 32)
          { arrayLen := 32, handle := 2, dataOffset := 0 }
          { arrayLen := 32, handle := 3, dataOffset := 0 }).toOption)
      = some (some (-1)) := by
  decide!

/-- The pointer loop runs to its end when every record in its range passes the guard. -/
theorem forLoopM_shift_returns (memMgrTest : Bool) (freedSize : Nat) :
    ∀ (cnt lo : Nat) (A : Nat → Alloc),
      (∀ j, lo ≤ j → j < lo + cnt → (A j).size < scratchFootprint memMgrTest) →
      ∃ A1, forLoopM (shiftPtrBody memMgrTest freedSize) lo cnt A = Except.ok A1 := by
  intro cnt
  induction cnt with
  | zero =>
    intro lo A _
    exact ⟨A, rfl⟩
  | succ cnt ih =>
    intro lo A hsz
    have hlo : (A lo).size < scratchFootprint memMgrTest := hsz lo (le_refl _) (by omega)
    simp only [forLoopM, shiftPtrBody, hlo, not_true_eq_false, if_false]
    apply ih
    intro j h1 h2
    have hj : j ≠ lo := by omega
    simp only [setAt, hj, if_false]
    exact hsz j (by omega) (by omega)

/-- A `Free` that returns, of a handle whose entry names a slot holding a record with a
base address and a non-zero size, has run `RemoveAlloc` on that slot. -/
theorem Free_hit (memMgrTest : Bool) (g : Globals) (handle i : Nat) (g1 : Globals)
    (hentry : g.allocs.handleConvertExternalInternal handle = i)
    (hissued : i ≤ g.allocs.numHandles) (hne : i ≠ emptyAllocHandle)
    (hlive : (g.allocs.allocSet i).destPtr ≠ 0 ∧ (g.allocs.allocSet i).size ≠ 0)
    (hfree : Free memMgrTest g handle = Except.ok g1) :
    RemoveAlloc memMgrTest g i handle = Except.ok g1 := by
  subst hentry
  unfold Free FindHandleAlloc at hfree
  by_cases hh : handle < maxNumHandles
  · simp only [hh, not_true_eq_false, if_false] at hfree
    have hmiss : ¬ (g.allocs.handleConvertExternalInternal handle > g.allocs.numHandles ∨
        g.allocs.handleConvertExternalInternal handle = emptyAllocHandle) := by
      intro hc
      rcases hc with hc | hc
      · omega
      · exact hne hc
    simp only [hmiss, if_false] at hfree
    by_cases hslot : g.allocs.handleConvertExternalInternal handle < maxNumAllocs
    · simp only [hslot, not_true_eq_false, if_false] at hfree
      simp only [hlive, ne_eq, not_false_eq_true, and_self, if_true] at hfree
      exact hfree
    · simp [hslot] at hfree
  · simp [hh] at hfree

/-- C27 (fails on the code). After `interiorOverCounters` there are three live records;
slot 1, the entry of handle 5, holds the record at `data`, and slot 2 the eight bytes
in which the client has stored the 32-bit value 2. `Free(5)`, an interior free of slot
1, copies these eight bytes over the counters, so that the bubble loop finds
`numAllocs = 2` and does not run: afterwards the freed record is still in slot 1 and
the count is 1, where the record of slot 2 should have moved to slot 1 and the count
should be 2. -/
theorem C27_interior_free_leaves_the_record_in_place :
    ((run true (freshArena true) interiorOverCounters).toOption.map fun r =>
        (r.1.allocs.numAllocs, r.1.allocs.handleConvertExternalInternal 5,
          r.1.allocs.allocSet 1, r.1.allocs.allocSet 2))
      = some (3, 1, { destPtr := 65536, size := 541065232, internalHandle := 5 },
          { destPtr := clientStart true + 8, size := 8, internalHandle := 6 }) ∧
    ((runThenFree interiorOverCounters 5).toOption.map fun g =>
        (g.allocs.numAllocs, g.allocs.allocSet 1, g.allocs.allocSet 2))
      = some (1, { destPtr := 65536, size := 541065232, internalHandle := 5 },
          { destPtr := 65536, size := 8, internalHandle := 6 }) := by
  decide!

/-! ### Sums of record sizes -/

/-- Peeling the last record off a span. -/
theorem spanSum_succ (A : Nat → Alloc) (lo cnt : Nat) :
    spanSum A lo (cnt + 1) = spanSum A lo cnt + (A (lo + cnt)).size := by
  unfold spanSum
  rw [List.range_succ, List.map_append, List.sum_append]
  simp

/-- A span splits into a front part and the rest. -/
theorem spanSum_add (A : Nat → Alloc) (lo a : Nat) :
    ∀ b, spanSum A lo (a + b) = spanSum A lo a + spanSum A (lo + a) b := by
  intro b
  induction b with
  | zero => simp [spanSum]
  | succ b ih =>
    rw [← Nat.add_assoc, spanSum_succ, ih, spanSum_succ, Nat.add_assoc lo a b]
    omega

/-- Peeling the first record off a span. -/
theorem spanSum_succ_front (A : Nat → Alloc) (lo cnt : Nat) :
    spanSum A lo (cnt + 1) = (A lo).size + spanSum A (lo + 1) cnt := by
  have h := spanSum_add A lo 1 cnt
  rw [Nat.add_comm 1 cnt] at h
  have h1 : spanSum A lo 1 = (A lo).size := by
    have := spanSum_succ A lo 0
    simpa [spanSum] using this
  rw [h, h1]

/-- A record of a span is no larger than the span. -/
theorem size_le_spanSum (A : Nat → Alloc) (lo : Nat) :
    ∀ cnt j, lo ≤ j → j < lo + cnt → (A j).size ≤ spanSum A lo cnt := by
  intro cnt
  induction cnt with
  | zero =>
    intro j h1 h2
    omega
  | succ cnt ih =>
    intro j h1 h2
    rw [spanSum_succ]
    by_cases hj : j = lo + cnt
    · subst hj
      omega
    · have := ih j h1 (by omega)
      omega

/-- The sum of the live sizes is the span of all live slots. -/
theorem liveSizes_sum (allocs : AllocBuffer) :
    (liveSizes allocs).sum = spanSum allocs.allocSet 0 allocs.numAllocs := by
  unfold liveSizes spanSum
  simp

/-- The packed address of slot `j` is the start plus the span of the slots below. -/
theorem packedBase_eq (start : Nat) (allocs : AllocBuffer) (j : Nat) :
    packedBase start allocs j = start + spanSum allocs.allocSet 0 j := by
  unfold packedBase spanSum
  simp

/-- The first loop of `RemoveAlloc` computes the plain sum when that sum is a 64-bit
value. -/
theorem forLoop_sumSizes_eq (A : Nat → Alloc) :
    ∀ (cnt lo acc : Nat), acc + spanSum A lo cnt < twoPow64 →
      forLoop (sumSizesBody A) lo cnt acc = acc + spanSum A lo cnt := by
  intro cnt
  induction cnt with
  | zero =>
    intro lo acc _
    simp [forLoop, spanSum]
  | succ cnt ih =>
    intro lo acc h
    rw [spanSum_succ_front] at h
    have hstep : sumSizesBody A lo acc = acc + (A lo).size := by
      unfold sumSizesBody add64
      exact Nat.mod_eq_of_lt (by omega)
    simp only [forLoop]
    rw [hstep, ih (lo + 1) (acc + (A lo).size) (by omega), spanSum_succ_front]
    omega

/-- The scratch size is a 64-bit value. -/
theorem scratchFootprint_lt (memMgrTest : Bool) : scratchFootprint memMgrTest < twoPow64 := by
  cases memMgrTest <;> decide

/-- With the used bytes the sum of the live sizes, the span behind an interior slot is
at most the used bytes less the freed size, and the first loop of `RemoveAlloc`
computes it. -/
theorem span_facts (memMgrTest : Bool) (g : Globals) (i : Nat)
    (hinterior : i + 1 < g.allocs.numAllocs)
    (hused : g.memUsed = (liveSizes g.allocs).sum)
    (hbelow : g.memUsed < scratchFootprint memMgrTest) :
    spanSum g.allocs.allocSet 0 i + (g.allocs.allocSet i).size
        + spanSum g.allocs.allocSet (i + 1) (g.allocs.numAllocs - (i + 1)) = g.memUsed ∧
    forLoop (sumSizesBody g.allocs.allocSet) (i + 1) (g.allocs.numAllocs - (i + 1)) 0
      = spanSum g.allocs.allocSet (i + 1) (g.allocs.numAllocs - (i + 1)) := by
  have hsplit : spanSum g.allocs.allocSet 0 g.allocs.numAllocs
      = spanSum g.allocs.allocSet 0 i + (g.allocs.allocSet i).size
        + spanSum g.allocs.allocSet (i + 1) (g.allocs.numAllocs - (i + 1)) := by
    have e : g.allocs.numAllocs = (i + 1) + (g.allocs.numAllocs - (i + 1)) := by omega
    have h1 := spanSum_add g.allocs.allocSet 0 (i + 1) (g.allocs.numAllocs - (i + 1))
    rw [← e, spanSum_succ] at h1
    simpa using h1
  have htot : spanSum g.allocs.allocSet 0 g.allocs.numAllocs = g.memUsed := by
    rw [hused, liveSizes_sum]
  have hsf := scratchFootprint_lt memMgrTest
  refine ⟨by omega, ?_⟩
  have := forLoop_sumSizes_eq g.allocs.allocSet (g.allocs.numAllocs - (i + 1)) (i + 1) 0
    (by omega)
  simpa using this

/-- C29. In a state whose live records are packed from the start of the client region,
whose used-bytes counter is the sum of the live sizes and below `scratchFootprint`, and
whose scratch pointer is where `Init` put it, for an interior slot `i`: the span the
first loop of `RemoveAlloc` computes is the total size of the records behind slot `i`
and is below `scratchFootprint`; the staging copy ends before the end of the scratch
region, which ends no later than the client region starts, and its source starts no
earlier than that; and the compaction loop passes its guard at every record. -/
theorem C29_staged_span_fits_scratch (memMgrTest : Bool) (g : Globals) (i : Nat)
    (hinterior : i + 1 < g.allocs.numAllocs)
    (hpacked : ∀ j, j < g.allocs.numAllocs →
      (g.allocs.allocSet j).destPtr
        = packedBase (g.data + clientDataOffset memMgrTest) g.allocs j)
    (hused : g.memUsed = (liveSizes g.allocs).sum)
    (hbelow : g.memUsed < scratchFootprint memMgrTest)
    (hlayout : g.scratch = add64 g.data sizeofAllocBuffer) :
    forLoop (sumSizesBody g.allocs.allocSet) (i + 1) (g.allocs.numAllocs - (i + 1)) 0
      = spanSum g.allocs.allocSet (i + 1) (g.allocs.numAllocs - (i + 1)) ∧
    spanSum g.allocs.allocSet (i + 1) (g.allocs.numAllocs - (i + 1))
      < scratchFootprint memMgrTest ∧
    g.scratch + spanSum g.allocs.allocSet (i + 1) (g.allocs.numAllocs - (i + 1))
      < g.scratch + scratchFootprint memMgrTest ∧
    g.scratch + scratchFootprint memMgrTest ≤ g.data + clientDataOffset memMgrTest ∧
    g.data + clientDataOffset memMgrTest ≤ (g.allocs.allocSet (i + 1)).destPtr ∧
    ∃ A1, forLoopM (shiftPtrBody memMgrTest (g.allocs.allocSet i).size) (i + 1)
      (g.allocs.numAllocs - (i + 1)) g.allocs.allocSet = Except.ok A1 := by
  obtain ⟨hsum, hloop⟩ := span_facts memMgrTest g i hinterior hused hbelow
  have hscratch : g.scratch ≤ g.data + sizeofAllocBuffer := by
    rw [hlayout]
    unfold add64
    exact Nat.mod_le _ _
  refine ⟨hloop, by omega, by omega, ?_, ?_, ?_⟩
  · unfold clientDataOffset
    omega
  · rw [hpacked (i + 1) hinterior, packedBase_eq]
    omega
  · apply forLoopM_shift_returns
    intro j h1 h2
    have := size_le_spanSum g.allocs.allocSet (i + 1) (g.allocs.numAllocs - (i + 1)) j h1 h2
    omega

/-- Witness for C29: four one-byte allocations and the interior slot 1. -/
theorem C29_staged_span_fits_scratch_witness :
    forLoop (sumSizesBody fourCharsArena.allocs.allocSet) (1 + 1)
        (fourCharsArena.allocs.numAllocs - (1 + 1)) 0
      = spanSum fourCharsArena.allocs.allocSet (1 + 1)
          (fourCharsArena.allocs.numAllocs - (1 + 1)) ∧
    spanSum fourCharsArena.allocs.allocSet (1 + 1) (fourCharsArena.allocs.numAllocs - (1 + 1))
      < scratchFootprint true ∧
    fourCharsArena.scratch
        + spanSum fourCharsArena.allocs.allocSet (1 + 1)
            (fourCharsArena.allocs.numAllocs - (1 + 1))
      < fourCharsArena.scratch + scratchFootprint true ∧
    fourCharsArena.scratch + scratchFootprint true
      ≤ fourCharsArena.data + clientDataOffset true ∧
    fourCharsArena.data + clientDataOffset true
      ≤ (fourCharsArena.allocs.allocSet (1 + 1)).destPtr ∧
    ∃ A1, forLoopM (shiftPtrBody true (fourCharsArena.allocs.allocSet 1).size) (1 + 1)
      (fourCharsArena.allocs.numAllocs - (1 + 1)) fourCharsArena.allocs.allocSet
        = Except.ok A1 :=
  C29_staged_span_fits_scratch true fourCharsArena 1 (by decide!)
    (by
      intro j hj
      have hn : fourCharsArena.allocs.numAllocs = 4 := by decide!
      rw [hn] at hj
      have hcases : j = 0 ∨ j = 1 ∨ j = 2 ∨ j = 3 := by omega
      rcases hcases with h | h | h | h <;> subst h <;> decide!)
    (by decide!) (by decide!) (by decide!)

/-- Outside the bookkeeping block memory is the byte map. -/
theorem mem_outside (g : Globals) (a : Nat)
    (h : ¬ (g.data ≤ a ∧ a < g.data + sizeofAllocBuffer)) : g.mem a = g.bytes a := by
  unfold Globals.mem
  simp only [h, if_false]

/-- The scratch size is at most 512 MiB. -/
theorem scratchFootprint_le (memMgrTest : Bool) : scratchFootprint memMgrTest ≤ 536870912 := by
  cases memMgrTest <;> decide

/-- C28. A returning `Free` of a handle whose entry names the interior slot `i`, from a
state whose live records are packed from the start of the client region and whose
used-bytes counter is the sum of the live sizes and below `scratchFootprint`, with `S`
the total size of the records behind slot `i`: afterwards the `S` bytes from the freed
record's base on are the `S` bytes that lay from the base of record `i + 1` on, and
every client byte below the freed record's base is as before. -/
theorem C28_interior_free_moves_span (memMgrTest : Bool) (g : Globals) (handle i : Nat)
    (g1 : Globals)
    (hcount : g.allocs.numAllocs < twoPow32)
    (hissued : g.allocs.numAllocs ≤ g.allocs.numHandles)
    (hentry : g.allocs.handleConvertExternalInternal handle = i)
    (hinterior : i + 1 < g.allocs.numAllocs)
    (hsize : (g.allocs.allocSet i).size ≠ 0)
    (hpacked : ∀ j, j < g.allocs.numAllocs →
      (g.allocs.allocSet j).destPtr
        = packedBase (g.data + clientDataOffset memMgrTest) g.allocs j)
    (hused : g.memUsed = (liveSizes g.allocs).sum)
    (hbelow : g.memUsed < scratchFootprint memMgrTest)
    (hlayout : g.scratch = add64 g.data sizeofAllocBuffer)
    (hfree : Free memMgrTest g handle = Except.ok g1) :
    (∀ k, k < spanSum g.allocs.allocSet (i + 1) (g.allocs.numAllocs - (i + 1)) →
      g1.bytes ((g.allocs.allocSet i).destPtr + k)
        = g.bytes ((g.allocs.allocSet (i + 1)).destPtr + k)) ∧
    (∀ a, g.data + clientDataOffset memMgrTest ≤ a → a < (g.allocs.allocSet i).destPtr →
      g1.bytes a = g.bytes a) := by
  have hne : i ≠ emptyAllocHandle := by
    unfold emptyAllocHandle
    unfold twoPow32 at hcount
    omega
  have hsab := sizeofAllocBuffer_eq
  have hcdo : clientDataOffset memMgrTest = sizeofAllocBuffer + scratchFootprint memMgrTest :=
    rfl
  have hdst : (g.allocs.allocSet i).destPtr
      = g.data + clientDataOffset memMgrTest + spanSum g.allocs.allocSet 0 i := by
    rw [hpacked i (by omega), packedBase_eq]
  have hsrc : (g.allocs.allocSet (i + 1)).destPtr
      = g.data + clientDataOffset memMgrTest + spanSum g.allocs.allocSet 0 (i + 1) := by
    rw [hpacked (i + 1) hinterior, packedBase_eq]
  have hbase : (g.allocs.allocSet i).destPtr ≠ 0 := by
    rw [hdst]
    omega
  have hrem := Free_hit memMgrTest g handle i g1 hentry (by omega) hne ⟨hbase, hsize⟩ hfree
  obtain ⟨_, _, _, _, _, hcase⟩ := RemoveAlloc_ok memMgrTest g i handle g1 hrem
  rcases hcase with ⟨hlast, _⟩ | ⟨_, _, _, _, gB, hBdata, hBbytes, hbytes⟩
  · exfalso
    unfold sub32 twoPow32 at hlast
    unfold twoPow32 at hcount
    omega
  · obtain ⟨hsum, hloop⟩ := span_facts memMgrTest g i hinterior hused hbelow
    rw [hloop] at hBbytes hbytes
    have hsf := scratchFootprint_le memMgrTest
    have hscratch : g.scratch = (g.data + 4194312) % 18446744073709551616 := by
      rw [hlayout, hsab]
      rfl
    constructor
    · intro k hk
      have e1 : g1.bytes ((g.allocs.allocSet i).destPtr + k) = gB.mem (g.scratch + k) := by
        rw [hbytes]
        unfold memcpy
        have c1 : (g.allocs.allocSet i).destPtr ≤ (g.allocs.allocSet i).destPtr + k ∧
            (g.allocs.allocSet i).destPtr + k
              < (g.allocs.allocSet i).destPtr
                + spanSum g.allocs.allocSet (i + 1) (g.allocs.numAllocs - (i + 1)) := by omega
        simp only [c1, and_self, if_true]
        congr 1
        omega
      have e2 : gB.mem (g.scratch + k) = gB.bytes (g.scratch + k) := by
        apply mem_outside
        rw [hBdata]
        omega
      have e3 : gB.bytes (g.scratch + k)
          = Globals.mem
              { g with
                allocs :=
                  { g.allocs with
                    handleConvertExternalInternal :=
                      setAt g.allocs.handleConvertExternalInternal handle emptyAllocHandle } }
              ((g.allocs.allocSet (i + 1)).destPtr + k) := by
        rw [hBbytes]
        unfold memcpy
        have c2 : g.scratch ≤ g.scratch + k ∧
            g.scratch + k
              < g.scratch + spanSum g.allocs.allocSet (i + 1) (g.allocs.numAllocs - (i + 1)) := by
          omega
        simp only [c2, and_self, if_true]
        congr 1
        omega
      rw [e1, e2, e3]
      apply mem_outside
      show ¬ (g.data ≤ (g.allocs.allocSet (i + 1)).destPtr + k ∧
        (g.allocs.allocSet (i + 1)).destPtr + k < g.data + sizeofAllocBuffer)
      omega
    · intro a ha1 ha2
      have e1 : g1.bytes a = gB.mem a := by
        rw [hbytes]
        unfold memcpy
        have c1 : ¬ ((g.allocs.allocSet i).destPtr ≤ a ∧
            a < (g.allocs.allocSet i).destPtr
              + spanSum g.allocs.allocSet (i + 1) (g.allocs.numAllocs - (i + 1))) := by omega
        simp only [c1, if_false]
      have e2 : gB.mem a = gB.bytes a := by
        apply mem_outside
        rw [hBdata]
        omega
      have e3 : gB.bytes a
          = Globals.mem
              { g with
                allocs :=
                  { g.allocs with
                    handleConvertExternalInternal :=
                      setAt g.allocs.handleConvertExternalInternal handle emptyAllocHandle } }
              a := by
        rw [hBbytes]
        unfold memcpy
        have c2 : ¬ (g.scratch ≤ a ∧
            a < g.scratch + spanSum g.allocs.allocSet (i + 1) (g.allocs.numAllocs - (i + 1))) := by
          omega
        simp only [c2, if_false]
      rw [e1, e2, e3]
      apply mem_outside
      show ¬ (g.data ≤ a ∧ a < g.data + sizeofAllocBuffer)
      omega

/-- Witness for C28: four one-byte allocations holding 97, 98, 99, 100 and `Free` of
handle 1 (slot 1). -/
theorem C28_interior_free_moves_span_witness :
    (∀ k, k < spanSum fourCharsArena.allocs.allocSet (1 + 1)
        (fourCharsArena.allocs.numAllocs - (1 + 1)) →
      fourCharsFreed.bytes ((fourCharsArena.allocs.allocSet 1).destPtr + k)
        = fourCharsArena.bytes ((fourCharsArena.allocs.allocSet (1 + 1)).destPtr + k)) ∧
    (∀ a, fourCharsArena.data + clientDataOffset true ≤ a →
      a < (fourCharsArena.allocs.allocSet 1).destPtr →
      fourCharsFreed.bytes a = fourCharsArena.bytes a) :=
  C28_interior_free_moves_span true fourCharsArena 1 1 fourCharsFreed
    (by decide!) (by decide!) (by decide!) (by decide!) (by decide!)
    (by
      intro j hj
      have hn : fourCharsArena.allocs.numAllocs = 4 := by decide!
      rw [hn] at hj
      have hcases : j = 0 ∨ j = 1 ∨ j = 2 ∨ j = 3 := by omega
      rcases hcases with h | h | h | h <;> subst h <;> decide!)
    (by decide!) (by decide!) (by decide!) rfl

/-! ### Stack-ordered clients -/

/-- Spans over slot tables with the same sizes are equal. -/
theorem spanSum_congr (A B : Nat → Alloc) (lo : Nat) :
    ∀ cnt, (∀ j, lo ≤ j → j < lo + cnt → (A j).size = (B j).size) →
      spanSum A lo cnt = spanSum B lo cnt := by
  intro cnt
  induction cnt with
  | zero =>
    intro _
    simp [spanSum]
  | succ cnt ih =>
    intro h
    rw [spanSum_succ, spanSum_succ, ih (fun j h1 h2 => h j h1 (by omega)),
      h (lo + cnt) (by omega) (by omega)]

/-- Mapping two functions that agree below `n` over `0, ..., n - 1`. -/
theorem map_range_congr {α : Type} (f f1 : Nat → α) :
    ∀ n, (∀ k, k < n → f1 k = f k) → (List.range n).map f1 = (List.range n).map f := by
  intro n
  induction n with
  | zero =>
    intro _
    rfl
  | succ n ih =>
    intro h
    rw [List.range_succ, List.map_append, List.map_append, ih (fun k hk => h k (by omega))]
    simp [h n (by omega)]

/-- `Init` establishes the stack invariant when the buffer lies in the address space. -/
theorem StackInv_Init (memMgrTest : Bool) (mallocResult : Nat) (uninitAllocSet : Nat → Alloc)
    (uninitBytes : Nat → Nat)
    (hbuffer : mallocResult + sizeofAllocBuffer + initAlloc memMgrTest ≤ twoPow64) :
    StackInv memMgrTest (Init memMgrTest mallocResult uninitAllocSet uninitBytes) [] := by
  have hpos : 0 < scratchFootprint memMgrTest := by
    cases memMgrTest <;> decide
  have hinit := initAlloc_eq memMgrTest
  constructor
  · exact hbuffer
  · simp [Init, InitAllocBuffer]
  · simp [Init, InitAllocBuffer]
  · simp [Init, InitAllocBuffer]
  · simp [Init, InitAllocBuffer]
  · intro k hk
    simp [Init, InitAllocBuffer] at hk
  · intro k hk
    simp [Init, InitAllocBuffer] at hk
  · intro k hk
    simp [Init, InitAllocBuffer] at hk
  · intro k hk
    simp [Init, InitAllocBuffer] at hk
  · simp [Init, InitAllocBuffer, liveSizes]
  · simpa [Init] using hpos
  · simp only [Init, Nat.add_zero]
    unfold add64
    apply Nat.mod_eq_of_lt
    unfold clientDataOffset
    omega

/-- An `AllocateRange` within the capacities returns. -/
theorem AllocateRange_returns (memMgrTest : Bool) (g : Globals) (size : Nat)
    (hn : g.allocs.numAllocs < maxNumAllocs) (hh : g.allocs.numHandles < maxNumHandles)
    (hb : add64 g.memUsed size < scratchFootprint memMgrTest) :
    ∃ r, AllocateRange memMgrTest g size = Except.ok r := by
  unfold AllocateRange AddAlloc
  simp only [hn, hh, hb, not_true_eq_false, if_false]
  exact ⟨_, rfl⟩

/-- A returning `AllocateRange` of a non-empty range below the scratch size keeps the
stack invariant and the live records. -/
theorem StackInv_push (memMgrTest : Bool) (g : Globals) (live : List Nat) (size h : Nat)
    (g1 : Globals) (inv : StackInv memMgrTest g live) (hne : size ≠ 0)
    (hlt : size < scratchFootprint memMgrTest)
    (hok : AllocateRange memMgrTest g size = Except.ok (h, g1)) :
    StackInv memMgrTest g1 (live ++ [h]) ∧
    g1.allocs.numAllocs = g.allocs.numAllocs + 1 ∧
    (∀ k, k < g.allocs.numAllocs → g1.allocs.allocSet k = g.allocs.allocSet k) := by
  obtain ⟨⟨hn, hH, hb⟩, hslot, _, hnextExact, _, hmemExact, hnum, hh, hH1, hentry, hothers,
    hentries, _, hdata, _⟩ := AllocateRange_ok memMgrTest g size h g1 hok
  have hsf := scratchFootprint_lt memMgrTest
  have hinit := initAlloc_eq memMgrTest
  have hbuf := inv.buffer
  have hbelow := inv.below
  have hcursor := inv.cursor
  have hcdo : clientDataOffset memMgrTest = sizeofAllocBuffer + scratchFootprint memMgrTest := rfl
  have hsab := sizeofAllocBuffer_eq
  have h264 : twoPow64 = 18446744073709551616 := rfl
  have hmem : g1.memUsed = g.memUsed + size := hmemExact (by omega)
  have hbplain : g.memUsed + size < scratchFootprint memMgrTest := by
    have : add64 g.memUsed size = g.memUsed + size := by
      unfold add64
      exact Nat.mod_eq_of_lt (by omega)
    omega
  have hnext : g1.nextAllocAddress = g.nextAllocAddress + size := hnextExact (by omega)
  have hkeep : ∀ k, k < g.allocs.numAllocs → g1.allocs.allocSet k = g.allocs.allocSet k :=
    fun k hk => hothers k (by omega)
  have hspan : ∀ k, k ≤ g.allocs.numAllocs →
      spanSum g1.allocs.allocSet 0 k = spanSum g.allocs.allocSet 0 k := by
    intro k hk
    apply spanSum_congr
    intro j _ hj
    rw [hkeep j (by omega)]
  have hused : spanSum g.allocs.allocSet 0 g.allocs.numAllocs = g.memUsed := by
    rw [inv.used, liveSizes_sum]
  refine ⟨?_, hnum, hkeep⟩
  constructor
  · rw [hdata]; exact hbuf
  · omega
  · omega
  · have := inv.issued
    omega
  · rw [hnum, List.range_succ, List.map_append,
      map_range_congr (fun k => (g.allocs.allocSet k).internalHandle)
        (fun k => (g1.allocs.allocSet k).internalHandle) g.allocs.numAllocs
        (fun k hk => by simp only [hkeep k hk]),
      ← inv.live_eq]
    simp [hslot]
  · intro k hk
    by_cases hkn : k = g.allocs.numAllocs
    · subst hkn
      rw [hslot]
      simp only
      omega
    · rw [hkeep k (by omega)]
      have := inv.backref_lt k (by omega)
      omega
  · intro k hk
    by_cases hkn : k = g.allocs.numAllocs
    · subst hkn
      rw [hslot]
      exact hentry
    · rw [hkeep k (by omega)]
      have hb1 := inv.backref_lt k (by omega)
      rw [hentries _ (by omega)]
      exact inv.entry k (by omega)
  · intro k hk
    by_cases hkn : k = g.allocs.numAllocs
    · subst hkn
      rw [hslot]
      exact hne
    · rw [hkeep k (by omega)]
      exact inv.size_ne k (by omega)
  · intro k hk
    rw [packedBase_eq, hdata, hspan k (by omega)]
    by_cases hkn : k = g.allocs.numAllocs
    · subst hkn
      rw [hslot]
      simp only
      omega
    · rw [hkeep k (by omega), inv.packed k (by omega), packedBase_eq]
  · rw [liveSizes_sum, hnum, spanSum_succ, hspan _ (le_refl _), Nat.zero_add, hslot, hmem]
    simp only
    omega
  · omega
  · rw [hnext, hdata, hmem]
    omega

/-- `RemoveAlloc` of the last live slot returns, and only lowers the cursor and the
counters and marks the entry of `handle`. -/
theorem RemoveAlloc_last (memMgrTest : Bool) (g : Globals) (ndx handle : Nat)
    (h1 : ndx < maxNumAllocs) (h2 : handle < maxNumHandles)
    (h3 : ndx = sub32 g.allocs.numAllocs 1) :
    ∃ g1, RemoveAlloc memMgrTest g ndx handle = Except.ok g1 ∧
      g1.nextAllocAddress = (g.allocs.allocSet ndx).destPtr ∧
      g1.memUsed = sub64 g.memUsed (g.allocs.allocSet ndx).size ∧
      g1.allocs.numAllocs = sub32 g.allocs.numAllocs 1 ∧
      g1.allocs.numHandles = g.allocs.numHandles ∧
      g1.allocs.allocSet = g.allocs.allocSet ∧
      g1.allocs.handleConvertExternalInternal
        = setAt g.allocs.handleConvertExternalInternal handle emptyAllocHandle ∧
      g1.bytes = g.bytes ∧ g1.data = g.data ∧ g1.scratch = g.scratch := by
  refine ⟨{ g with
      nextAllocAddress := (g.allocs.allocSet ndx).destPtr
      memUsed := sub64 g.memUsed (g.allocs.allocSet ndx).size
      allocs :=
        { numAllocs := sub32 g.allocs.numAllocs 1
          numHandles := g.allocs.numHandles
          allocSet := g.allocs.allocSet
          handleConvertExternalInternal :=
            setAt g.allocs.handleConvertExternalInternal handle emptyAllocHandle } },
    ?_, rfl, rfl, rfl, rfl, rfl, rfl, rfl, rfl, rfl⟩
  unfold RemoveAlloc
  have hc : ¬ (ndx ≠ sub32 g.allocs.numAllocs 1) := fun hx => hx h3
  simp only [h1, h2, and_self, not_true_eq_false, if_false, hc]

/-- `Free` of a handle whose entry names a slot holding a record with a base address
and a non-zero size runs `RemoveAlloc` on that slot. -/
theorem Free_eq_RemoveAlloc (memMgrTest : Bool) (g : Globals) (handle : Nat)
    (hh : handle < maxNumHandles)
    (hissued : g.allocs.handleConvertExternalInternal handle ≤ g.allocs.numHandles)
    (hslot : g.allocs.handleConvertExternalInternal handle < maxNumAllocs)
    (hlive : (g.allocs.allocSet (g.allocs.handleConvertExternalInternal handle)).destPtr ≠ 0 ∧
      (g.allocs.allocSet (g.allocs.handleConvertExternalInternal handle)).size ≠ 0) :
    Free memMgrTest g handle
      = RemoveAlloc memMgrTest g (g.allocs.handleConvertExternalInternal handle) handle := by
  unfold Free FindHandleAlloc
  have hmiss : ¬ (g.allocs.handleConvertExternalInternal handle > g.allocs.numHandles ∨
      g.allocs.handleConvertExternalInternal handle = emptyAllocHandle) := by
    unfold emptyAllocHandle
    unfold maxNumAllocs at hslot
    omega
  simp only [hh, not_true_eq_false, if_false, hmiss, hslot, hlive, ne_eq, not_false_eq_true,
    and_self, if_true]

/-- Under the stack invariant every live handle resolves to the base address of its
record. -/
theorem GetHandlePtr_live (memMgrTest : Bool) (g : Globals) (live : List Nat)
    (inv : StackInv memMgrTest g live) (k : Nat) (hk : k < g.allocs.numAllocs) :
    GetHandlePtr g (g.allocs.allocSet k).internalHandle
      = Except.ok (g.allocs.allocSet k).destPtr := by
  have hb := inv.backref_lt k hk
  have he := inv.entry k hk
  have hH := inv.numHandles_le
  have hn := inv.numAllocs_le
  have hi := inv.issued
  unfold GetHandlePtr FindHandleAlloc
  have hh : (g.allocs.allocSet k).internalHandle < maxNumHandles := by omega
  have hmiss : ¬ (k > g.allocs.numHandles ∨ k = emptyAllocHandle) := by
    unfold emptyAllocHandle
    unfold maxNumAllocs at hn
    omega
  have hslot : k < maxNumAllocs := by omega
  simp only [hh, not_true_eq_false, if_false, he, hmiss, hslot]

/-- Under the stack invariant `Free` of the newest live handle returns, keeps the
invariant and leaves the slot table as it is. -/
theorem StackInv_pop (memMgrTest : Bool) (g : Globals) (live : List Nat) (h : Nat)
    (inv : StackInv memMgrTest g live) (hlast : live.getLast? = some h) :
    ∃ g1, Free memMgrTest g h = Except.ok g1 ∧ StackInv memMgrTest g1 live.dropLast ∧
      g1.allocs.numAllocs + 1 = g.allocs.numAllocs ∧
      g1.allocs.allocSet = g.allocs.allocSet := by
  have hlive := inv.live_eq
  cases hn : g.allocs.numAllocs with
  | zero =>
    rw [hn] at hlive
    simp at hlive
    subst hlive
    simp at hlast
  | succ m =>
    rw [hn, List.range_succ, List.map_append] at hlive
    simp only [List.map_cons, List.map_nil] at hlive
    have hh : h = (g.allocs.allocSet m).internalHandle := by
      rw [hlive] at hlast
      simpa using hlast.symm
    have hdrop : live.dropLast
        = (List.range m).map fun k => (g.allocs.allocSet k).internalHandle := by
      rw [hlive]
      simp
    have hm : m < g.allocs.numAllocs := by omega
    have hcap := inv.numAllocs_le
    have hH := inv.numHandles_le
    have hiss := inv.issued
    have hentry : g.allocs.handleConvertExternalInternal h = m := by
      rw [hh]
      exact inv.entry m hm
    have hhlt : h < maxNumHandles := by
      have := inv.backref_lt m hm
      omega
    have hcdo : 0 < clientDataOffset memMgrTest := by
      unfold clientDataOffset sizeofAllocBuffer
      omega
    have hbase : (g.allocs.allocSet m).destPtr ≠ 0 := by
      rw [inv.packed m hm, packedBase_eq]
      omega
    have hfree : Free memMgrTest g h = RemoveAlloc memMgrTest g m h := by
      have := Free_eq_RemoveAlloc memMgrTest g h hhlt (by omega) (by omega)
        (by rw [hentry]; exact ⟨hbase, inv.size_ne m hm⟩)
      rw [hentry] at this
      exact this
    have hdec : sub32 g.allocs.numAllocs 1 = m := by
      rw [sub32_one_eq _ (by omega) hcap]
      omega
    obtain ⟨g1, hrem, hnext, hmem, hnum, hnumH, hset, htable, _, hdata, _⟩ :=
      RemoveAlloc_last memMgrTest g m h (by omega) hhlt hdec.symm
    rw [hdec] at hnum
    have hused : spanSum g.allocs.allocSet 0 m + (g.allocs.allocSet m).size = g.memUsed := by
      rw [inv.used, liveSizes_sum, hn, spanSum_succ]
      simp
    have hbelow := inv.below
    have hsf := scratchFootprint_lt memMgrTest
    have hmem1 : g1.memUsed = spanSum g.allocs.allocSet 0 m := by
      rw [hmem]
      unfold sub64
      unfold twoPow64 at hsf ⊢
      omega
    refine ⟨g1, by rw [hfree, hrem], ?_, by omega, hset⟩
    constructor
    · rw [hdata]; exact inv.buffer
    · omega
    · omega
    · omega
    · rw [hdrop, hnum, hset]
    · intro k hk
      rw [hset, hnumH]
      exact inv.backref_lt k (by omega)
    · intro k hk
      rw [hset, htable]
      have hne : (g.allocs.allocSet k).internalHandle ≠ h := by
        intro hc
        have e1 := inv.entry k (by omega)
        rw [hc, hentry] at e1
        omega
      simp only [setAt, hne, if_false]
      exact inv.entry k (by omega)
    · intro k hk
      rw [hset]
      exact inv.size_ne k (by omega)
    · intro k hk
      rw [packedBase_eq, hset, hdata, inv.packed k (by omega), packedBase_eq]
    · rw [liveSizes_sum, hnum, hset, hmem1]
    · omega
    · rw [hnext, hdata, hmem1, inv.packed m hm, packedBase_eq]

/-- A returning call of a stack-ordered client keeps the stack invariant when every
`push` asks for a non-empty range below the scratch size. -/
theorem StackInv_step (memMgrTest : Bool) (st : Globals × List Nat) (c : StackCall)
    (st1 : Globals × List Nat) (inv : StackInv memMgrTest st.1 st.2)
    (hsize : ∀ sz, c = StackCall.push sz → sz ≠ 0 ∧ sz < scratchFootprint memMgrTest)
    (hstep : stackStep memMgrTest st c = Except.ok st1) :
    StackInv memMgrTest st1.1 st1.2 ∧
    (∀ k, k < st.1.allocs.numAllocs → k < st1.1.allocs.numAllocs →
      st1.1.allocs.allocSet k = st.1.allocs.allocSet k) := by
  cases c with
  | push sz =>
    obtain ⟨hne, hlt⟩ := hsize sz rfl
    simp only [stackStep] at hstep
    cases hal : AllocateRange memMgrTest st.1 sz with
    | error e => simp [hal] at hstep
    | ok r =>
      obtain ⟨h, g1⟩ := r
      simp only [hal, Except.ok.injEq] at hstep
      subst hstep
      obtain ⟨hinv, _, hkeep⟩ := StackInv_push memMgrTest st.1 st.2 sz h g1 inv hne hlt hal
      exact ⟨hinv, fun k hk _ => hkeep k hk⟩
  | pop =>
    simp only [stackStep] at hstep
    cases hl : st.2.getLast? with
    | none =>
      simp only [hl, Except.ok.injEq] at hstep
      subst hstep
      exact ⟨inv, fun _ _ _ => rfl⟩
    | some h =>
      obtain ⟨g1, hfree, hinv, _, hset⟩ := StackInv_pop memMgrTest st.1 st.2 h inv hl
      simp only [hl, hfree, Except.ok.injEq] at hstep
      subst hstep
      exact ⟨hinv, fun k _ _ => by simp only [hset]⟩

/-- Every returning run of a stack-ordered client keeps the stack invariant. -/
theorem StackInv_run (memMgrTest : Bool) :
    ∀ (calls : List StackCall) (st st1 : Globals × List Nat),
      StackInv memMgrTest st.1 st.2 →
      (∀ sz, StackCall.push sz ∈ calls → sz ≠ 0 ∧ sz < scratchFootprint memMgrTest) →
      runStack memMgrTest st calls = Except.ok st1 →
      StackInv memMgrTest st1.1 st1.2 := by
  intro calls
  induction calls with
  | nil =>
    intro st st1 inv _ hrun
    simp only [runStack, Except.ok.injEq] at hrun
    subst hrun
    exact inv
  | cons c cs ih =>
    intro st st1 inv hsz hrun
    simp only [runStack] at hrun
    cases hs : stackStep memMgrTest st c with
    | error e => simp [hs] at hrun
    | ok st2 =>
      simp only [hs] at hrun
      have hstep := StackInv_step memMgrTest st c st2 inv
        (fun sz hc => hsz sz (by rw [hc]; exact List.mem_cons_self _ _)) hs
      exact ih st2 st1 hstep.1 (fun sz hm => hsz sz (List.mem_cons_of_mem _ hm)) hrun

/-- Between two states that satisfy the stack invariant and agree on the records live
in both, a handle live in both resolves to the same address. -/
theorem GetHandlePtr_stable (memMgrTest : Bool) (g g1 : Globals) (live live1 : List Nat)
    (inv : StackInv memMgrTest g live) (inv1 : StackInv memMgrTest g1 live1)
    (hkeep : ∀ k, k < g.allocs.numAllocs → k < g1.allocs.numAllocs →
      g1.allocs.allocSet k = g.allocs.allocSet k)
    (h : Nat) (hmem : h ∈ live) (hmem1 : h ∈ live1) :
    ∃ p, GetHandlePtr g h = Except.ok p ∧ GetHandlePtr g1 h = Except.ok p := by
  rw [inv.live_eq] at hmem
  rw [inv1.live_eq] at hmem1
  simp only [List.mem_map, List.mem_range] at hmem hmem1
  obtain ⟨k, hk, hkh⟩ := hmem
  obtain ⟨k1, hk1, hkh1⟩ := hmem1
  have hkk : k < g1.allocs.numAllocs := by
    by_contra hc
    have hlt : k1 < g.allocs.numAllocs := by omega
    have e := hkeep k1 hlt hk1
    have e1 := inv.entry k1 hlt
    have e2 := inv.entry k hk
    rw [← e, hkh1, ← hkh, e2] at e1
    omega
  have e := hkeep k hk hkk
  refine ⟨(g.allocs.allocSet k).destPtr, ?_, ?_⟩
  · rw [← hkh]
    exact GetHandlePtr_live memMgrTest g live inv k hk
  · have := GetHandlePtr_live memMgrTest g1 live1 inv1 k hkk
    rw [e] at this
    rw [← hkh]
    exact this

/-- C30. After any returning run from `Init` (buffer inside the address space) of a
client that frees in stack order and asks for non-empty ranges below the scratch size,
one more call of that client, within the capacities when it is an `Allocate`, returns;
and afterwards the live handles are the back-references of the live records in slot
order, the table entry of each is the slot of its own record, the records are packed
from the start of the client region, the used-bytes counter is the sum of the live
sizes, and every handle live before and after the call resolves to the address it
resolved to before. -/
theorem C30_stack_order_keeps_bookkeeping (memMgrTest : Bool) (mallocResult : Nat)
    (uninitAllocSet : Nat → Alloc) (uninitBytes : Nat → Nat) (calls : List StackCall)
    (st : Globals × List Nat) (c : StackCall)
    (hbuffer : mallocResult + sizeofAllocBuffer + initAlloc memMgrTest ≤ twoPow64)
    (hsizes : ∀ sz, StackCall.push sz ∈ calls → sz ≠ 0 ∧ sz < scratchFootprint memMgrTest)
    (hrun : runStack memMgrTest (Init memMgrTest mallocResult uninitAllocSet uninitBytes, [])
      calls = Except.ok st)
    (hcap : ∀ sz, c = StackCall.push sz →
      sz ≠ 0 ∧ st.1.allocs.numAllocs < maxNumAllocs ∧ st.1.allocs.numHandles < maxNumHandles ∧
      st.1.memUsed + sz < scratchFootprint memMgrTest) :
    ∃ st1, stackStep memMgrTest st c = Except.ok st1 ∧
      st1.2 = (List.range st1.1.allocs.numAllocs).map
        (fun k => (st1.1.allocs.allocSet k).internalHandle) ∧
      (∀ k, k < st1.1.allocs.numAllocs →
        st1.1.allocs.handleConvertExternalInternal (st1.1.allocs.allocSet k).internalHandle
          = k) ∧
      (∀ k, k < st1.1.allocs.numAllocs →
        (st1.1.allocs.allocSet k).destPtr
          = packedBase (st1.1.data + clientDataOffset memMgrTest) st1.1.allocs k) ∧
      st1.1.memUsed = (liveSizes st1.1.allocs).sum ∧
      (∀ h, h ∈ st.2 → h ∈ st1.2 →
        ∃ p, GetHandlePtr st.1 h = Except.ok p ∧ GetHandlePtr st1.1 h = Except.ok p) := by
  have inv : StackInv memMgrTest st.1 st.2 :=
    StackInv_run memMgrTest calls _ st
      (StackInv_Init memMgrTest mallocResult uninitAllocSet uninitBytes hbuffer) hsizes hrun
  have hreturns : ∃ st1, stackStep memMgrTest st c = Except.ok st1 := by
    cases c with
    | push sz =>
      obtain ⟨_, hn, hh, hb⟩ := hcap sz rfl
      have hsf := scratchFootprint_lt memMgrTest
      have hadd : add64 st.1.memUsed sz = st.1.memUsed + sz := by
        unfold add64
        exact Nat.mod_eq_of_lt (by omega)
      obtain ⟨r, hr⟩ := AllocateRange_returns memMgrTest st.1 sz hn hh (by omega)
      exact ⟨(r.2, st.2 ++ [r.1]), by simp only [stackStep, hr]⟩
    | pop =>
      cases hl : st.2.getLast? with
      | none => exact ⟨st, by simp only [stackStep, hl]⟩
      | some h =>
        obtain ⟨g1, hfree, _⟩ := StackInv_pop memMgrTest st.1 st.2 h inv hl
        exact ⟨(g1, st.2.dropLast), by simp only [stackStep, hl, hfree]⟩
  obtain ⟨st1, hstep⟩ := hreturns
  obtain ⟨inv1, hkeep⟩ := StackInv_step memMgrTest st c st1 inv
    (fun sz hc => ⟨(hcap sz hc).1, by have := (hcap sz hc).2.2.2; omega⟩) hstep
  exact ⟨st1, hstep, inv1.live_eq, inv1.entry, inv1.packed, inv1.used,
    fun h hm hm1 => GetHandlePtr_stable memMgrTest st.1 st1.1 st.2 st1.2 inv inv1 hkeep h hm hm1⟩

/-- Witness for C30: after `Allocate(8); Allocate(16); Free(newest)` one more
`Allocate(4)`. -/
theorem C30_stack_order_keeps_bookkeeping_witness :
    ∃ st1, stackStep true nestedLoans (StackCall.push 4) = Except.ok st1 ∧
      st1.2 = (List.range st1.1.allocs.numAllocs).map
        (fun k => (st1.1.allocs.allocSet k).internalHandle) ∧
      (∀ k, k < st1.1.allocs.numAllocs →
        st1.1.allocs.handleConvertExternalInternal (st1.1.allocs.allocSet k).internalHandle
          = k) ∧
      (∀ k, k < st1.1.allocs.numAllocs →
        (st1.1.allocs.allocSet k).destPtr
          = packedBase (st1.1.data + clientDataOffset true) st1.1.allocs k) ∧
      st1.1.memUsed = (liveSizes st1.1.allocs).sum ∧
      (∀ h, h ∈ nestedLoans.2 → h ∈ st1.2 →
        ∃ p, GetHandlePtr nestedLoans.1 h = Except.ok p ∧
          GetHandlePtr st1.1 h = Except.ok p) :=
  C30_stack_order_keeps_bookkeeping true 65536
    (fun _ => { destPtr := 0, size := 0, internalHandle := 0 }) (fun _ => 0)
    [StackCall.push 8, StackCall.push 16, StackCall.pop] nestedLoans (StackCall.push 4)
    (by decide)
    (by
      intro sz hmem
      simp only [List.mem_cons, StackCall.push.injEq, List.mem_singleton, reduceCtorEq,
        or_false, List.not_mem_nil] at hmem
      rcases hmem with h | h <;> subst h <;> decide)
    rfl
    (by
      intro sz hc
      simp only [StackCall.push.injEq] at hc
      subst hc
      decide!)

end CPUMemory
